import Mathlib

/-!
# Verification of the GD&T extraction engine

Shallow embedding of the extraction engine of this repository, following
`src/Latestupdatedversion1.0.py` (class `GDTExtractor`), which is the most
complete of the three near-identical copies of the engine
(`main.py`, `try.py`, `Latestupdatedversion1.0.py`).

Modelling conventions:
* The input text is represented as its list of lines (the Python code begins
  with `text.splitlines()` and every pattern in practice matches within a
  single line; the `finditer`/`findall` scans over the whole text are modelled
  as per-line scans concatenated in line order, which agrees with the Python
  scan order whenever no match spans a line break).
* Python `dict`s are modelled as insertion-ordered association lists
  (`Dict α` below) with last-write-wins updates that keep the original key
  position, exactly like CPython dicts.
* Regexes are modelled by hand-written matchers over `List Char` that follow
  the concrete patterns of the source, including greedy/lazy behaviour and
  backtracking where it is observable.
* Python floats are modelled by exact decimals (`Dec` below); every numeric
  literal exercised in this development is an exact decimal, for which exact
  arithmetic and the `:.3f` / `str()` renderings below agree with CPython's
  double arithmetic.
* `str.lower` / `str.upper` / `\d` / `\w` are modelled on their ASCII
  behaviour, which is the behaviour exercised by STEP files.
* The source file of the repository stores its glyph string literals in
  double-encoded (UTF-8-read-as-cp1252-re-encoded) form; for instance the
  "±" of `f"¬±{...:.3f}"` is literally the two characters `¬` `±`, and the
  Cylindricity glyph is literally the three characters `‚` `å` `Ä`.  The
  embedding copies those literals byte-for-byte from the source, since that
  is what the Python program actually outputs.
-/

deriving instance DecidableEq for Except

namespace GDNT

/-! ## Characters and Python string primitives -/

/-- ASCII decimal digit, the `\d` of the source regexes. -/
def isDigitC (c : Char) : Bool := 48 ≤ c.toNat && c.toNat ≤ 57

/-- ASCII uppercase letter, the `[A-Z]` of the source regexes. -/
def isUpperAZ (c : Char) : Bool := 65 ≤ c.toNat && c.toNat ≤ 90

/-- ASCII lowercase letter. -/
def isLowerAZ (c : Char) : Bool := 97 ≤ c.toNat && c.toNat ≤ 122

/-- Word character, the `\w` of the source regexes (ASCII fragment). -/
def isWordC (c : Char) : Bool :=
  isUpperAZ c || isLowerAZ c || isDigitC c || c == '_'

/-- Python `\s`: space, tab, newline, carriage return, vertical tab, form feed. -/
def isSpaceC (c : Char) : Bool :=
  c == ' ' || c == '\t' || c == '\n' || c == '\r' || c == '\x0b' || c == '\x0c'

/-- Python `str.lower` on one character (ASCII case mapping). -/
def lowerC (c : Char) : Char :=
  if isUpperAZ c then Char.ofNat (c.toNat + 32) else c

/-- Python `str.upper` on one character (ASCII case mapping). -/
def upperC (c : Char) : Char :=
  if isLowerAZ c then Char.ofNat (c.toNat - 32) else c

/-- Python `str.lower`. -/
def pyLower (s : String) : String := String.mk (s.data.map lowerC)

/-- Python `str.upper`. -/
def pyUpper (s : String) : String := String.mk (s.data.map upperC)

/-- Python `str.capitalize`: first character uppercased, the rest lowercased. -/
def pyCapitalize (s : String) : String :=
  match s.data with
  | [] => ""
  | c :: cs => String.mk (upperC c :: cs.map lowerC)

/-- Python substring containment `sub in hay` on character lists. -/
def subL (sub : List Char) : List Char → Bool
  | [] => sub.isEmpty
  | c :: t => List.isPrefixOf sub (c :: t) || subL sub t

/-- Python substring containment `sub in hay` on strings. -/
def subS (sub hay : String) : Bool := subL sub.data hay.data

/-- Python `any(k in hay for k in keys)`. -/
def anySub (hay : String) (keys : List String) : Bool :=
  keys.any (fun k => subS k hay)

/-- Python `str.strip()`: remove leading and trailing whitespace. -/
def pyStrip (s : String) : String :=
  String.mk (((s.data.dropWhile isSpaceC).reverse.dropWhile isSpaceC).reverse)

/-- Value of a list of ASCII digits (`int()` of the matched group). -/
def digitsToNat (ds : List Char) : Nat :=
  ds.foldl (fun a c => a * 10 + (c.toNat - '0'.toNat)) 0

/-! ## `determine_plane_position` (Latestupdatedversion1.0.py, lines 80-139)

The Surface/Position Classifier.  The optional `plane_data` parameter of the
source is never used and is omitted. -/

/-- First match of `re.findall(r'plane(\d+)', fname)`: searches for the literal
`plane` followed by at least one digit, scanning left to right. -/
def findPlaneNum : List Char → Option Nat
  | [] => none
  | c :: cs =>
    match c :: cs with
    | 'p' :: 'l' :: 'a' :: 'n' :: 'e' :: rest =>
      let ds := rest.takeWhile isDigitC
      if ds.isEmpty then findPlaneNum cs else some (digitsToNat ds)
    | _ => findPlaneNum cs

/-- Tail of the classifier: the `plane_numbers` check and the final
`"plane" in fname` cascade (source lines 119-139). -/
def planeTail (fname : String) (feature_name : String) : String :=
  let generic :=
    if subS "plane" fname then
      if anySub fname ["+z", "positive", "high"] then "top face"
      else if anySub fname ["-z", "negative", "low"] then "bottom face"
      else "planar surface"
    else feature_name
  match findPlaneNum fname.data with
  | some n => if n = 1 then "bottom face" else if n ≥ 2 then "top face" else generic
  | none => generic

/-- `GDTExtractor.determine_plane_position(feature_name, datum_letter=None)`.
`datum_letter = none` models the Python `None` default; `some ""` would model
an explicitly passed empty string (also falsy, treated alike). -/
def determine_plane_position (feature_name : String) (datum_letter : Option String) : String :=
  if feature_name = "" then "surface"
  else
    let fname := pyLower feature_name
    if anySub fname ["top", "upper", "above"] then "top face"
    else if anySub fname ["bottom", "lower", "below", "base"] then "bottom face"
    else
      let truthy : Bool := match datum_letter with
        | some dl => dl ≠ ""
        | none => false
      if truthy then
        let dl := datum_letter.getD ""
        let du := pyUpper dl
        if du = "A" then
          (if anySub fname ["top", "upper"] then "top face" else "bottom face")
        else if du = "B" ∨ du = "C" then "cylindrical side"
        else if du = "D" then "top face"
        else if du = "E" ∨ du = "F" ∨ du = "G" ∨ du = "H" then
          (if du = "E" ∨ du = "G" then "top face" else "bottom face")
        else planeTail fname feature_name
      else
        if subS "plane1" fname then "bottom face"
        else if subS "plane2" fname then "top face"
        else planeTail fname feature_name

/-! ## Python dicts as insertion-ordered association lists -/

/-- A CPython dict: insertion-ordered key/value list, keys unique by
construction (all dicts of the engine are built from `[]` via `dinsert`). -/
abbrev Dict (α : Type) := List (String × α)

/-- `d.get(k)` / `k in d` lookup. -/
def dget? {α : Type} (d : Dict α) (k : String) : Option α :=
  (d.find? (fun p => p.1 == k)).map (·.2)

/-- `d.get(k, default)`. -/
def dgetD {α : Type} (d : Dict α) (k : String) (v : α) : α := (dget? d k).getD v

/-- `k in d`. -/
def dcontains {α : Type} (d : Dict α) (k : String) : Bool := (dget? d k).isSome

/-- `d[k] = v`: overwrite in place if present (keeping the key's position,
as CPython does), else append. -/
def dinsert {α : Type} (d : Dict α) (k : String) (v : α) : Dict α :=
  if dcontains d k then d.map (fun p => if p.1 == k then (k, v) else p)
  else d ++ [(k, v)]

/-- `list(d.keys())`, in insertion order. -/
def dkeys {α : Type} (d : Dict α) : List String := d.map (·.1)

/-! ## Regex scaffolding

Each concrete pattern of the source is modelled by a matcher
`List Char → Option (result × rest)` that attempts a match anchored at the
head of its input; `reSearch` turns it into `re.search` (try every start
position, leftmost match wins) and `reFindAll` into `re.findall`/`finditer`
(leftmost non-overlapping matches, resuming after each match). -/

/-- Case-sensitive literal. -/
def expectL : List Char → List Char → Option (List Char)
  | [], cs => some cs
  | p :: ps, c :: cs => if c == p then expectL ps cs else none
  | _ :: _, [] => none

/-- Case-insensitive literal (for patterns compiled with `re.IGNORECASE`);
returns the original matched slice and the rest. -/
def expectCI : List Char → List Char → Option (List Char × List Char)
  | [], cs => some ([], cs)
  | p :: ps, c :: cs =>
    if lowerC c == lowerC p then
      match expectCI ps cs with
      | some (m, rest) => some (c :: m, rest)
      | none => none
    else none
  | _ :: _, [] => none

/-- `re.search`: try the matcher at every position, leftmost first. -/
def reSearch {α : Type} (m : List Char → Option α) : List Char → Option α
  | [] => m []
  | c :: cs =>
    match m (c :: cs) with
    | some a => some a
    | none => reSearch m cs

/-- `re.findall` / `re.finditer`: leftmost non-overlapping matches, resuming
after each match.  Structural recursion on a fuel argument (initialised to the
input length) so that the definition reduces in the kernel; every matcher used
below consumes at least one character on success, so fuel never runs out and
the defensive `min` in the recursive call is the identity. -/
def reFindAllAux {α : Type} (m : List Char → Option (α × List Char)) :
    Nat → List Char → List α
  | 0, _ => []
  | _ + 1, [] => []
  | fuel + 1, c :: cs =>
    match m (c :: cs) with
    | some (a, rest) =>
      a :: reFindAllAux m fuel (if rest.length ≤ cs.length then rest else cs)
    | none => reFindAllAux m fuel cs

def reFindAll {α : Type} (m : List Char → Option (α × List Char)) (l : List Char) : List α :=
  reFindAllAux m l.length l

/-! ## Datum Resolver (Latestupdatedversion1.0.py, lines 593-619) -/

/-- `re.match(r"#(\d+)=DATUM\('([^']*)',\$,#\d+,\.F\.,'([A-Z])'\);", line)`
(the inline, case-sensitive pattern of the datum loop; the entity id captured
by group 1 feeds `datum_id_to_letter`, which the engine never reads, so only
the name and the letter are returned). -/
def parseDatumLine (cs : List Char) : Option (String × Char) :=
  match cs with
  | '#' :: r =>
    let ds := r.takeWhile isDigitC
    let r1 := r.dropWhile isDigitC
    if ds.isEmpty then none else
    match expectL "=DATUM('".data r1 with
    | none => none
    | some r2 =>
      let name := r2.takeWhile (· != '\'')
      let r3 := r2.dropWhile (· != '\'')
      match expectL "',$,#".data r3 with
      | none => none
      | some r4 =>
        let ds2 := r4.takeWhile isDigitC
        let r5 := r4.dropWhile isDigitC
        if ds2.isEmpty then none else
        match expectL ",.F.,'".data r5 with
        | none => none
        | some r6 =>
          match r6 with
          | l :: '\'' :: ')' :: ';' :: _ =>
            if isUpperAZ l then some (String.mk name, l) else none
          | _ => none
  | _ => none

/-- `re.search(r'@([^(]+)', feature_name)`: group 1 of the first match. -/
def featureTokenAfterAt : List Char → Option (List Char)
  | [] => none
  | c :: r =>
    if c = '@' then
      let tok := r.takeWhile (· != '(')
      if tok.isEmpty then featureTokenAfterAt r else some tok
    else featureTokenAfterAt r

/-- Location inferred for one matched DATUM line (source lines 602-619):
the lowered token after `@` drives a keyword cascade; without an `@` the
whole name goes through the classifier with the datum letter as context. -/
def datum_location_from_name (feature_name : String) (datum_letter : String) : String :=
  match featureTokenAfterAt feature_name.data with
  | some tok =>
    let geometric_feature := String.mk (tok.map lowerC)
    if subS "boss" geometric_feature then "cylindrical side"
    else if subS "plane1" geometric_feature then "bottom face"
    else if subS "plane2" geometric_feature then "top face"
    else if subS "plane" geometric_feature then
      determine_plane_position geometric_feature (some datum_letter)
    else geometric_feature
  | none => determine_plane_position feature_name (some datum_letter)

/-- One step of the datum scan: a matching line updates both maps. -/
def datumScanStep (acc : Dict String × Dict String) (line : String) :
    Dict String × Dict String :=
  match parseDatumLine line.data with
  | some (feature_name, letter) =>
    let l := String.mk [letter]
    (dinsert acc.1 l (datum_location_from_name feature_name l),
     dinsert acc.2 l feature_name)
  | none => acc

/-- The datum scan: fold over all lines, building
(`datum_results`, `datum_letter_to_feature`); a later line with the same
letter overwrites (last-write-wins). -/
def datumScan (lines : List String) : Dict String × Dict String :=
  lines.foldl datumScanStep ([], [])

/-! ## Shape-Aspect Resolver (Latestupdatedversion1.0.py, lines 579-581 and 622-642)

Pattern: `#\d+\s*=\s*SHAPE_ASPECT\('([^']*?)\((\w)?'?,.*?#(\d+)\)`
(case-sensitive, searched with `finditer`). -/

/-- The `.*?#(\d+)\)` tail: scan forward to the first `#` followed by a
digit run whose next character is `)` (shorter digit splits cannot succeed,
since any proper prefix of the run is followed by a digit). -/
def findHashNumParen : List Char → Option (String × List Char)
  | [] => none
  | '#' :: r =>
    let ds := r.takeWhile isDigitC
    let r2 := r.dropWhile isDigitC
    if ds.isEmpty then findHashNumParen r
    else
      match r2 with
      | ')' :: r3 => some (String.mk ds, r3)
      | _ => findHashNumParen r
  | _ :: r => findHashNumParen r

/-- The `,.*?#(\d+)\)` tail of the shape-aspect pattern. -/
def saComma (letter : Option Char) (r2 : List Char) :
    Option ((Option Char × String) × List Char) :=
  match r2 with
  | ',' :: r3 =>
    match findHashNumParen r3 with
    | some (ds, rest) => some ((letter, ds), rest)
    | none => none
  | _ => none

/-- The `'?,...` tail: prefer consuming a quote, else match the comma directly. -/
def saQuoteComma (letter : Option Char) (r2 : List Char) :
    Option ((Option Char × String) × List Char) :=
  match r2 with
  | '\'' :: r3 => (saComma letter r3).orElse (fun _ => saComma letter r2)
  | _ => saComma letter r2

/-- The `(\w)?'?,.*?#(\d+)\)` continuation after the literal `(`, trying the
`(\w)?` participation alternatives in regex backtracking order. -/
def saAfterParen (r : List Char) : Option ((Option Char × String) × List Char) :=
  match r with
  | w :: r2 =>
    if isWordC w then (saQuoteComma (some w) r2).orElse (fun _ => saQuoteComma none r)
    else saQuoteComma none r
  | [] => none

/-- The lazy `([^']*?)\(` group: extend the name one character at a time
(never across a quote), trying the continuation at each `(`. -/
def saName (acc : List Char) : List Char → Option ((String × Option Char × String) × List Char)
  | [] => none
  | c :: r2 =>
    if c = '\'' then none
    else if c = '(' then
      match saAfterParen r2 with
      | some pr => some ((String.mk acc, pr.1.1, pr.1.2), pr.2)
      | none => saName (acc ++ ['(']) r2
    else saName (acc ++ [c]) r2

/-- Anchored match of the shape-aspect pattern. -/
def shapeAspectMatch (cs : List Char) : Option ((String × Option Char × String) × List Char) :=
  match cs with
  | '#' :: r =>
    let ds := r.takeWhile isDigitC
    let r1 := r.dropWhile isDigitC
    if ds.isEmpty then none else
    match r1.dropWhile isSpaceC with
    | '=' :: r3 =>
      match expectL "SHAPE_ASPECT('".data (r3.dropWhile isSpaceC) with
      | some r5 => saName [] r5
      | none => none
    | _ => none
  | _ => none

/-- The keyword cascade assigning a location to one shape-aspect match
(source lines 624-639). -/
def shape_aspect_location (shape_name : String) : String :=
  if subS "plane1" shape_name then "Plane1"
  else if subS "plane2" shape_name then "Plane2"
  else if subS "boss1" shape_name then "Boss1"
  else if subS "torus" shape_name then "torus side"
  else if subS "top" shape_name then "top face"
  else if subS "bottom" shape_name then "bottom face"
  else if subS "cylindrical" shape_name || subS "side" shape_name then "cylindrical side"
  else ""

/-- All shape-aspect matches of the text, in scan order. -/
def shapeAspectFinds (lines : List String) : List (String × Option Char × String) :=
  (lines.map (fun l => reFindAll shapeAspectMatch l.data)).flatten

/-- One step of the shape-aspect scan: record the location under the face id
and, when an inline datum letter is present, overwrite that letter's entry. -/
def shapeAspectStep (acc : Dict String × Dict String) (m : String × Option Char × String) :
    Dict String × Dict String :=
  let location := shape_aspect_location (pyLower m.1)
  (dinsert acc.1 m.2.2 location,
   match m.2.1 with
   | some c => dinsert acc.2 (String.mk [c]) location
   | none => acc.2)

/-- The shape-aspect scan: builds `face_to_plane` and refines
`datum_results`. -/
def shapeAspectScan (lines : List String) (dr0 : Dict String) : Dict String × Dict String :=
  (shapeAspectFinds lines).foldl shapeAspectStep ([], dr0)

/-- The datum→location map (`datum_results`) and datum→feature-name map
(`datum_letter_to_feature`) of one extraction run, after both scans. -/
def datumMaps (lines : List String) : Dict String × Dict String :=
  let s := datumScan lines
  ((shapeAspectScan lines s.1).2, s.2)

/-! ## Result rows and symbols -/

/-- One output row: the 8-tuple
(Type, Value, Datum, Location, Surface, Tolerance Value, Upper Limit, Lower Limit). -/
structure Row where
  typ : String
  value : String
  datum : String
  location : String
  surface : String
  tolerance_value : String
  upper_limit : String
  lower_limit : String
deriving DecidableEq, Repr

/-- `self.gdnt_symbols` (source lines 23-31).  The glyph literals are copied
byte-for-byte from the source file, which stores them in double-encoded form
(see the header comment): each "glyph" is a short sequence of mojibake
characters, e.g. the Cylindricity entry is the three characters `‚` `å` `Ä`. -/
def gdnt_symbols : Dict String :=
  [("Straightness", "‚îÄ"), ("Flatness", "‚òê"), ("Circularity", "‚óã"),
   ("Cylindricity", "‚åÄ"), ("Diameter", "‚åÄ"), ("Length", "‚Üî"),
   ("Linear Distance", "‚Üî")]

/-! ## Entity Index (source lines 562-566) -/

/-- `re.match(r"(#\d+)\s*=", line)`: the entity identifier opening a line. -/
def matchEntityId (cs : List Char) : Option String :=
  match cs with
  | '#' :: r =>
    let ds := r.takeWhile isDigitC
    if ds.isEmpty then none else
    match (r.dropWhile isDigitC).dropWhile isSpaceC with
    | '=' :: _ => some (String.mk ('#' :: ds))
    | _ => none
  | _ => none

/-- `line_dict`: entity identifier → stripped defining line, last write wins. -/
def buildLineDict (lines : List String) : Dict String :=
  lines.foldl
    (fun d line =>
      match matchEntityId line.data with
      | some id => dinsert d id (pyStrip line)
      | none => d)
    []

/-! ## Numeric values: Python floats modelled as exact decimals

Every number the engine manipulates enters as a decimal literal matched out
of the text, and the only arithmetic applied is subtraction, absolute value,
halving, and addition — all of which keep exact decimals exact.  Python's
binary doubles and the exact decimals below therefore agree on every value
and rendering this development evaluates, and the exact-decimal model keeps
all arithmetic in kernel-reducible `Int`/`Nat` operations. -/

/-- An exact decimal `num / 10 ^ exp`. -/
structure Dec where
  num : Int
  exp : Nat
deriving DecidableEq, Repr

/-- Addition (denominators multiplied, no normalisation needed). -/
def Dec.add (a b : Dec) : Dec :=
  ⟨a.num * (10 : Int) ^ b.exp + b.num * (10 : Int) ^ a.exp, a.exp + b.exp⟩

/-- Subtraction. -/
def Dec.sub (a b : Dec) : Dec :=
  ⟨a.num * (10 : Int) ^ b.exp - b.num * (10 : Int) ^ a.exp, a.exp + b.exp⟩

/-- Absolute value. -/
def Dec.abs (a : Dec) : Dec := ⟨|a.num|, a.exp⟩

/-- Division by two (exact: multiply the numerator by 5, shift the exponent). -/
def Dec.half (a : Dec) : Dec := ⟨a.num * 5, a.exp + 1⟩

/-- Python truthiness/zero test of the value. -/
def Dec.isZero (a : Dec) : Bool := a.num == 0

def Dec.zero : Dec := ⟨0, 0⟩

/-- `float(s)` on the decimal forms produced by the source's regex groups
(optional sign, digits, optional fraction; surrounding whitespace stripped).
Exponent/`inf`/`nan` forms are not exercised by any matched group and are
not modelled: they and any other form are a parse failure (`ValueError`). -/
def pyFloat? (s : String) : Option Dec :=
  let t := ((s.data.dropWhile isSpaceC).reverse.dropWhile isSpaceC).reverse
  let sign : Int × List Char :=
    match t with
    | '-' :: r => (-1, r)
    | '+' :: r => (1, r)
    | _ => (1, t)
  let ip := sign.2.takeWhile isDigitC
  let t2 := sign.2.dropWhile isDigitC
  match t2 with
  | [] => if ip.isEmpty then none else some ⟨sign.1 * (digitsToNat ip : Int), 0⟩
  | '.' :: fr =>
    let fp := fr.takeWhile isDigitC
    if (fr.dropWhile isDigitC).isEmpty && !(ip.isEmpty && fp.isEmpty) then
      some ⟨sign.1 * (digitsToNat (ip ++ fp) : Int), fp.length⟩
    else none
  | _ => none

/-- Three-digit zero padding. -/
def pad3 (n : Nat) : String :=
  if n < 10 then "00" ++ toString n
  else if n < 100 then "0" ++ toString n
  else toString n

/-- Python `f"{x:.3f}"`.  On exact multiples of 1/1000 — the only values this
development evaluates it at — rounding never triggers, so the half-up tie
rule below agrees with CPython's round-half-even on the underlying double. -/
def format3 (q : Dec) : String :=
  let p := (10 : Nat) ^ q.exp
  let m := (q.num.natAbs * 2000 + p) / (2 * p)
  (if q.num < 0 then "-" else "") ++ toString (m / 1000) ++ "." ++ pad3 (m % 1000)

/-- Python `str(float)`: shortest decimal representation.  Faithful on values
whose shortest repr is their exact decimal expansion (integers render as
`n.0`), which covers every value this development evaluates it at. -/
def pyFloatStr (q : Dec) : String :=
  let sign := if q.num < 0 then "-" else ""
  let p := (10 : Nat) ^ q.exp
  let ip := q.num.natAbs / p
  let fdigits := Nat.toDigits 10 (q.num.natAbs % p)
  let padded := List.replicate (q.exp - fdigits.length) '0' ++ fdigits
  let trimmed := (padded.reverse.dropWhile (· == '0')).reverse
  if trimmed.isEmpty then sign ++ toString ip ++ ".0"
  else sign ++ toString ip ++ "." ++ String.mk trimmed

/-! ## Geometric Tolerance Extractor: patterns (source lines 569-571, 645-691) -/

/-- Anchored match of
`(#\d+)\s*=\s*(CYLINDRICITY|FLATNESS|STRAIGHTNESS|ROUNDNESS)_TOLERANCE\(\s*'([^']*)'\s*,\s*''\s*,\s*(#\d+)`
(compiled with `re.IGNORECASE`): yields (id, type-as-matched, name, ref). -/
def tolMatch (cs : List Char) : Option ((String × String × String × String) × List Char) :=
  match cs with
  | '#' :: r =>
    let ds := r.takeWhile isDigitC
    if ds.isEmpty then none else
    match (r.dropWhile isDigitC).dropWhile isSpaceC with
    | '=' :: r2 =>
      let r3 := r2.dropWhile isSpaceC
      let kw := (expectCI "CYLINDRICITY".data r3).orElse (fun _ =>
        (expectCI "FLATNESS".data r3).orElse (fun _ =>
        (expectCI "STRAIGHTNESS".data r3).orElse (fun _ =>
        expectCI "ROUNDNESS".data r3)))
      match kw with
      | none => none
      | some (ty, r4) =>
        match expectCI "_TOLERANCE".data r4 with
        | none => none
        | some (_, r5) =>
          match r5 with
          | '(' :: r6 =>
            match r6.dropWhile isSpaceC with
            | '\'' :: r7 =>
              let name := r7.takeWhile (· != '\'')
              match r7.dropWhile (· != '\'') with
              | '\'' :: r9 =>
                match r9.dropWhile isSpaceC with
                | ',' :: r11 =>
                  match r11.dropWhile isSpaceC with
                  | '\'' :: '\'' :: r12 =>
                    match r12.dropWhile isSpaceC with
                    | ',' :: r14 =>
                      match r14.dropWhile isSpaceC with
                      | '#' :: r15 =>
                        let ds2 := r15.takeWhile isDigitC
                        if ds2.isEmpty then none
                        else some ((String.mk ('#' :: ds), String.mk ty, String.mk name,
                                    String.mk ('#' :: ds2)), r15.dropWhile isDigitC)
                      | _ => none
                    | _ => none
                  | _ => none
                | _ => none
              | _ => none
            | _ => none
          | _ => none
    | _ => none
  | _ => none

/-- All geometric-tolerance matches of the text, in scan order
(`tol_pattern.findall(text)`). -/
def tolFinds (lines : List String) : List (String × String × String × String) :=
  (lines.map (fun l => reFindAll tolMatch l.data)).flatten

/-- Anchored match of
`(?:LENGTH_MEASURE|VALUE_REPRESENTATION_ITEM)\s*\(\s*([\d.]+)` (case-sensitive). -/
def valueMatcher (cs : List Char) : Option String :=
  let after := fun (r : List Char) =>
    match r.dropWhile isSpaceC with
    | '(' :: r2 =>
      let g := (r2.dropWhile isSpaceC).takeWhile (fun c => isDigitC c || c == '.')
      if g.isEmpty then none else some (String.mk g)
    | _ => none
  match expectL "LENGTH_MEASURE".data cs with
  | some r => after r
  | none =>
    match expectL "VALUE_REPRESENTATION_ITEM".data cs with
    | some r => after r
    | none => none

/-- `re.search(r'\(([A-Z])\)', s)`: first parenthesised uppercase letter. -/
def parenUpperMatcher : List Char → Option Char
  | '(' :: c :: ')' :: _ => if isUpperAZ c then some c else none
  | _ => none

def parenUpperSearch (cs : List Char) : Option Char := reSearch parenUpperMatcher cs

/-- `re.findall(r'#(\d+)', s)`: all entity references, digits only. -/
def hashNumMatcher : List Char → Option (String × List Char)
  | '#' :: r =>
    let ds := r.takeWhile isDigitC
    if ds.isEmpty then none else some (String.mk ds, r.dropWhile isDigitC)
  | _ => none

def hashNums (cs : List Char) : List String := reFindAll hashNumMatcher cs

/-- Anchored match of `DATUM_FEATURE\([^']*'[^']*\(([A-Z])\)'` (case-sensitive).
The two greedy `[^']*` runs cannot cross a quote, so the pattern matches
exactly when the first quoted segment after `DATUM_FEATURE(` ends in `(U)`
for an uppercase `U`. -/
def dfMatcher (cs : List Char) : Option Char :=
  match expectL "DATUM_FEATURE(".data cs with
  | none => none
  | some r =>
    match r.dropWhile (· != '\'') with
    | '\'' :: r2 =>
      let seg := r2.takeWhile (· != '\'')
      match r2.dropWhile (· != '\'') with
      | '\'' :: _ =>
        match seg.reverse with
        | ')' :: u :: '(' :: _ => if isUpperAZ u then some u else none
        | _ => none
      | _ => none
    | _ => none

def dfSearch (cs : List Char) : Option Char := reSearch dfMatcher cs

/-! ## Geometric Tolerance Extractor: the six-tier datum/location chain
(source lines 654-760) -/

/-- Tier 6 for Straightness (source lines 748-760): if any datums are known,
index them by the number of tolerance rows produced so far — `available[count % n]`
while `count < n`, else `available[0]`.  Returns `none` when no datum is known
(the source then leaves datum and location unchanged, i.e. empty). -/
def straightness_fallback (datum_results : Dict String) (current_count : Nat) :
    Option (String × String) :=
  let available_datums := dkeys datum_results
  if available_datums.isEmpty then none
  else if current_count < available_datums.length then
    let dl := (available_datums.get? (current_count % available_datums.length)).getD ""
    some (dl, dgetD datum_results dl "")
  else
    let dl := (available_datums.get? 0).getD ""
    some (dl, dgetD datum_results dl "")

/-- Methods 1-6 of the geometric extractor, producing (datum_letter, location)
for one matched tolerance entity. -/
def geomMethods (lines : List String) (line_dict datum_results datum_letter_to_feature : Dict String)
    (tol_id tol_name label : String) (current_count : Nat) : String × String :=
  let tol_name_lower := pyLower tol_name
  -- Method 1: datum letter in parentheses in the tolerance name (no membership check)
  let s1 : String × String :=
    match parenUpperSearch tol_name.data with
    | some c => (String.mk [c], dgetD datum_results (String.mk [c]) "")
    | none => ("", "")
  -- Method 2: any known letter, parenthesised, case-insensitively
  let s2 : String × String :=
    if s1.1 = "" then
      match datum_results.find? (fun p =>
          subS ("(" ++ pyLower p.1 ++ ")") tol_name_lower ||
          subS ("(" ++ pyUpper p.1 ++ ")") tol_name) with
      | some p => (p.1, p.2)
      | none => s1
    else s1
  -- Method 3: DATUM_FEATURE lines referencing any entity of the tolerance line
  let s3 : String × String :=
    if s2.1 = "" then
      let tol_line := dgetD line_dict tol_id ""
      match (hashNums tol_line.data).findSome? (fun ref =>
          lines.findSome? (fun line =>
            if subS "DATUM_FEATURE" line && subS ("#" ++ ref) line then dfSearch line.data
            else none)) with
      | some c => (String.mk [c], dgetD datum_results (String.mk [c]) "")
      | none => s2
    else s2
  -- Method 4: feature keywords in the tolerance name
  let s4 : String × String :=
    if s3.2 = "" then
      if subS "boss" tol_name_lower then
        (if s3.1 = "" then
           ((datum_letter_to_feature.find? (fun p => subS "boss" (pyLower p.2))).map (·.1)).getD ""
         else s3.1, "cylindrical side")
      else if subS "plane1" tol_name_lower then
        (if s3.1 = "" then
           ((datum_letter_to_feature.find? (fun p => subS "plane1" (pyLower p.2))).map (·.1)).getD ""
         else s3.1, "bottom face")
      else if subS "plane2" tol_name_lower then
        (if s3.1 = "" then
           ((datum_letter_to_feature.find? (fun p => subS "plane2" (pyLower p.2))).map (·.1)).getD ""
         else s3.1, "top face")
      else if subS "plane" tol_name_lower then (s3.1, "planar surface")
      else s3
    else s3
  -- Method 5: surface-compatible datum for an already-known location
  let s5 : String × String :=
    if s4.1 = "" && s4.2 ≠ "" then
      match datum_results.find? (fun p =>
          (s4.2 == "cylindrical side" && p.2 == "cylindrical side") ||
          (["bottom face", "top face", "planar surface"].contains s4.2 &&
           ["bottom face", "top face", "planar surface"].contains p.2)) with
      | some p => (p.1, s4.2)
      | none => s4
    else s4
  -- Method 6: infer the location from the tolerance type
  if s5.2 = "" then
    if pyLower label = "cylindricity" || pyLower label = "circularity" then
      (match datum_results.find? (fun p => p.2 == "cylindrical side") with
       | some p => p.1
       | none => s5.1, "cylindrical side")
    else if pyLower label = "flatness" then
      match datum_results.find? (fun p => subS "face" p.2) with
      | some p => (p.1, p.2)
      | none => (s5.1, "planar surface")
    else if pyLower label = "straightness" then
      match straightness_fallback datum_results current_count with
      | some s => s
      | none => s5
    else s5
  else s5

/-- The geometric tolerance loop (source lines 645-767): label, nominal value
and the method chain, accumulating `tol_results` (whose length tier 6 reads). -/
def geomRows (lines : List String) (line_dict datum_results datum_letter_to_feature : Dict String) :
    List (String × String × String × String) :=
  (tolFinds lines).foldl
    (fun acc m =>
      let definition := dgetD line_dict m.2.2.2 ""
      let value := (reSearch valueMatcher definition.data).getD "N/A"
      let label := if pyUpper m.2.1 = "ROUNDNESS" then "Circularity" else pyCapitalize m.2.1
      let dl := geomMethods lines line_dict datum_results datum_letter_to_feature
        m.1 m.2.2.1 label acc.length
      acc ++ [(label, value, dl.1, dl.2)])
    []

/-! ## Datum matching for dimensional tolerances (source lines 210-294) -/

/-- Anchored match of `datum\d+@[^(]*\(([A-Z])\)` (case-sensitive; the source
searches it inside the already-lowercased feature name). -/
def m1Matcher (cs : List Char) : Option Char :=
  match expectL "datum".data cs with
  | some r =>
    let ds := r.takeWhile isDigitC
    if ds.isEmpty then none else
    match r.dropWhile isDigitC with
    | '@' :: r2 =>
      match r2.dropWhile (· != '(') with
      | '(' :: c :: ')' :: _ => if isUpperAZ c then some c else none
      | _ => none
    | _ => none
  | none => none

def m1Search (cs : List Char) : Option Char := reSearch m1Matcher cs

/-- Ascending insertion into a sorted list (CPython `sorted` on the distinct
keys of a dict). -/
def insertSorted (x : String) : List String → List String
  | [] => [x]
  | y :: ys => if x < y then x :: y :: ys else y :: insertSorted x ys

def pySorted (xs : List String) : List String := xs.foldr insertSorted []

/-- Method 2 of the datum matcher: a parenthesised uppercase letter found in
the (lowered) feature name is accepted only if it is already a datum key. -/
def findDatumMethod2 (fname : String) (datum_results : Dict String) :
    Option String :=
  match parenUpperSearch fname.data with
  | some c =>
    if dcontains datum_results (String.mk [c]) then some (String.mk [c]) else none
  | none => none

/-- First datum whose location mentions `face` or `plane` (shared fallback of
the plane branch of Method 3). -/
def planeFaceDatum (datum_results : Dict String) : Option String :=
  (datum_results.find? (fun p =>
    subS "face" (pyLower p.2) || subS "plane" (pyLower p.2))).map (·.1)

/-- Method 3 of the datum matcher: feature-type compatibility.  `.error ()`
models the `IndexError` of `datum_letters[-1]` on an empty sorted key list. -/
def findDatumMethod3 (fname : String) (datum_results : Dict String) :
    Except Unit (Option String) :=
  if subS "boss" fname || subS "cylinder" fname then
    match datum_results.find? (fun p => subS "cylindrical" (pyLower p.2)) with
    | some p => .ok (some p.1)
    | none =>
      match datum_results with
      | p :: _ => .ok (some p.1)
      | [] => .ok none
  else if subS "plane" fname then
    match findPlaneNum fname.data with
    | some n =>
      let datum_letters := pySorted (dkeys datum_results)
      if n ≤ datum_letters.length then
        if n = 0 then
          match datum_letters.getLast? with
          | some k => .ok (some k)
          | none => .error ()
        else .ok (some (datum_letters.getD (n - 1) ""))
      else .ok (planeFaceDatum datum_results)
    | none => .ok (planeFaceDatum datum_results)
  else .ok none

/-- Method 4 of the datum matcher: feature-name similarity against each
datum's raw feature name. -/
def findDatumMethod4 (fname : String) (datum_letter_to_feature : Dict String) :
    Option String :=
  (datum_letter_to_feature.find? (fun p =>
    let dfl := pyLower p.2
    (subS "boss" fname && subS "boss" dfl) ||
    (subS "plane1" fname && subS "plane1" dfl) ||
    (subS "plane2" fname && subS "plane2" dfl) ||
    (subS "plane" fname && subS "plane" dfl))).map (·.1)

/-- Method 5 of the datum matcher: CAD-convention defaults, else the first
datum; the empty string when no datum is known at all. -/
def findDatumMethod5 (fname : String) (datum_results : Dict String) : String :=
  match datum_results with
  | [] => ""
  | p0 :: _ =>
    if anySub fname ["boss", "cylinder", "diameter"] then
      if dcontains datum_results "A" then "A"
      else
        match datum_results.find? (fun p => subS "cylindrical" (pyLower p.2)) with
        | some p => p.1
        | none => p0.1
    else if anySub fname ["plane", "length", "distance"] then
      if dcontains datum_results "A" then "A"
      else
        match datum_results.find? (fun p =>
            subS "face" (pyLower p.2) || subS "plane" (pyLower p.2)) with
        | some p => p.1
        | none => p0.1
    else p0.1

/-- `GDTExtractor.find_datum_for_dimensional_tolerance`.  The result is
`Except` because the plane-number tier evaluates `datum_letters[plane_num - 1]`,
which for `plane_num = 0` is Python's `datum_letters[-1]` — the *last* element
when the sorted key list is non-empty, and an `IndexError` when it is empty
(`.error ()` here; the caller's `try/except` then discards every dimensional
row, see `extract_dimensional_tolerances`).  Method 1 — the regex
`datum\d+@[^(]*\(([A-Z])\)` — is searched in the lowered name, so its
uppercase group can never match. -/
def find_datum_for_dimensional_tolerance (feature_name : String)
    (datum_results datum_letter_to_feature : Dict String) : Except Unit String :=
  if feature_name = "" then .ok ""
  else
    let fname := pyLower feature_name
    match m1Search fname.data with
    | some c => .ok (String.mk [c])
    | none =>
      match findDatumMethod2 fname datum_results with
      | some s => .ok s
      | none =>
        match findDatumMethod3 fname datum_results with
        | .error e => .error e
        | .ok (some s) => .ok s
        | .ok none =>
          match findDatumMethod4 fname datum_letter_to_feature with
          | some s => .ok s
          | none => .ok (findDatumMethod5 fname datum_results)

/-! ## Dimensional Tolerance Extractor: patterns (source lines 296-554) -/

/-- The `.*?LENGTH_MEASURE\(([^)]+)\)` tail (lazy scan; `re.IGNORECASE`). -/
def lmTail : List Char → Option (String × List Char)
  | [] => none
  | c :: cs =>
    match expectCI "LENGTH_MEASURE(".data (c :: cs) with
    | some (_, r) =>
      let g := r.takeWhile (· != ')')
      match r.dropWhile (· != ')') with
      | ')' :: r2 => if g.isEmpty then lmTail cs else some (String.mk g, r2)
      | _ => lmTail cs
    | none => lmTail cs

/-- Anchored match of `(#\d+)\s*=.*?LENGTH_MEASURE\(([^)]+)\)` (`re.IGNORECASE`). -/
def lengthMeasureMatcher (cs : List Char) : Option ((String × String) × List Char) :=
  match cs with
  | '#' :: r =>
    let ds := r.takeWhile isDigitC
    if ds.isEmpty then none else
    match (r.dropWhile isDigitC).dropWhile isSpaceC with
    | '=' :: r2 =>
      match lmTail r2 with
      | some (g, rest) => some ((String.mk ('#' :: ds), g), rest)
      | none => none
    | _ => none
  | _ => none

/-- Anchored match of `POSITIVE_LENGTH_MEASURE\(([^)]+)\)` (`re.IGNORECASE`). -/
def posLMMatcher (cs : List Char) : Option String :=
  match expectCI "POSITIVE_LENGTH_MEASURE(".data cs with
  | some (_, r) =>
    let g := r.takeWhile (· != ')')
    match r.dropWhile (· != ')') with
    | ')' :: _ => if g.isEmpty then none else some (String.mk g)
    | _ => none
  | none => none

/-- Anchored match of `(#\d+)\s*=\s*KEYWORD\s*\(\s*(#\d+)\s*,\s*(#\d+)\s*\)`
(`re.IGNORECASE`), shared by `PLUS_MINUS_TOLERANCE` and `TOLERANCE_VALUE`. -/
def twoRefMatcher (kw : List Char) (cs : List Char) :
    Option ((String × String × String) × List Char) :=
  match cs with
  | '#' :: r =>
    let ds := r.takeWhile isDigitC
    if ds.isEmpty then none else
    match (r.dropWhile isDigitC).dropWhile isSpaceC with
    | '=' :: r2 =>
      match expectCI kw (r2.dropWhile isSpaceC) with
      | some (_, r3) =>
        match r3.dropWhile isSpaceC with
        | '(' :: r4 =>
          match r4.dropWhile isSpaceC with
          | '#' :: r5 =>
            let d1 := r5.takeWhile isDigitC
            if d1.isEmpty then none else
            match (r5.dropWhile isDigitC).dropWhile isSpaceC with
            | ',' :: r7 =>
              match r7.dropWhile isSpaceC with
              | '#' :: r8 =>
                let d2 := r8.takeWhile isDigitC
                if d2.isEmpty then none else
                match (r8.dropWhile isDigitC).dropWhile isSpaceC with
                | ')' :: r10 =>
                  some ((String.mk ('#' :: ds), String.mk ('#' :: d1),
                         String.mk ('#' :: d2)), r10)
                | _ => none
              | _ => none
            | _ => none
          | _ => none
        | _ => none
      | none => none
    | _ => none
  | _ => none

/-- Anchored match of
`(#\d+)\s*=\s*DIMENSIONAL_SIZE\s*\(\s*(#\d+)\s*,\s*'([^']*)'\s*\)` (`re.IGNORECASE`). -/
def dimSizeMatcher (cs : List Char) : Option ((String × String × String) × List Char) :=
  match cs with
  | '#' :: r =>
    let ds := r.takeWhile isDigitC
    if ds.isEmpty then none else
    match (r.dropWhile isDigitC).dropWhile isSpaceC with
    | '=' :: r2 =>
      match expectCI "DIMENSIONAL_SIZE".data (r2.dropWhile isSpaceC) with
      | some (_, r3) =>
        match r3.dropWhile isSpaceC with
        | '(' :: r4 =>
          match r4.dropWhile isSpaceC with
          | '#' :: r5 =>
            let d1 := r5.takeWhile isDigitC
            if d1.isEmpty then none else
            match (r5.dropWhile isDigitC).dropWhile isSpaceC with
            | ',' :: r7 =>
              match r7.dropWhile isSpaceC with
              | '\'' :: r8 =>
                let ty := r8.takeWhile (· != '\'')
                match r8.dropWhile (· != '\'') with
                | '\'' :: r9 =>
                  match r9.dropWhile isSpaceC with
                  | ')' :: r10 =>
                    some ((String.mk ('#' :: ds), String.mk ('#' :: d1), String.mk ty), r10)
                  | _ => none
                | _ => none
              | _ => none
            | _ => none
          | _ => none
        | _ => none
      | none => none
    | _ => none
  | _ => none

/-- Anchored match of
`(#\d+)\s*=\s*DIMENSIONAL_LOCATION\s*\(\s*'([^']*)'[^#]*#(\d+)[^#]*#(\d+)`
(`re.IGNORECASE`; each `[^#]*` runs to the first `#`, which must be followed
by at least one digit). -/
def dimLocMatcher (cs : List Char) : Option ((String × String × String × String) × List Char) :=
  match cs with
  | '#' :: r =>
    let ds := r.takeWhile isDigitC
    if ds.isEmpty then none else
    match (r.dropWhile isDigitC).dropWhile isSpaceC with
    | '=' :: r2 =>
      match expectCI "DIMENSIONAL_LOCATION".data (r2.dropWhile isSpaceC) with
      | some (_, r3) =>
        match r3.dropWhile isSpaceC with
        | '(' :: r4 =>
          match r4.dropWhile isSpaceC with
          | '\'' :: r5 =>
            let ty := r5.takeWhile (· != '\'')
            match r5.dropWhile (· != '\'') with
            | '\'' :: r6 =>
              match r6.dropWhile (· != '#') with
              | '#' :: r7 =>
                let d1 := r7.takeWhile isDigitC
                if d1.isEmpty then none else
                match (r7.dropWhile isDigitC).dropWhile (· != '#') with
                | '#' :: r8 =>
                  let d2 := r8.takeWhile isDigitC
                  if d2.isEmpty then none
                  else some ((String.mk ('#' :: ds), String.mk ty,
                              String.mk d1, String.mk d2), r8.dropWhile isDigitC)
                | _ => none
              | _ => none
            | _ => none
          | _ => none
        | _ => none
      | none => none
    | _ => none
  | _ => none

/-- Anchored match of `SHAPE_ASPECT\s*\(\s*'([^']*)'` (case-sensitive). -/
def saNameMatcher (cs : List Char) : Option String :=
  match expectL "SHAPE_ASPECT".data cs with
  | some r =>
    match r.dropWhile isSpaceC with
    | '(' :: r2 =>
      match r2.dropWhile isSpaceC with
      | '\'' :: r3 =>
        let g := r3.takeWhile (· != '\'')
        match r3.dropWhile (· != '\'') with
        | '\'' :: _ => some (String.mk g)
        | _ => none
      | _ => none
    | _ => none
  | none => none

/-- Anchored match of `#(\d+)\)` (the representation reference search). -/
def hashNumParenMatcher : List Char → Option String
  | '#' :: r =>
    let ds := r.takeWhile isDigitC
    if ds.isEmpty then none else
    match r.dropWhile isDigitC with
    | ')' :: _ => some (String.mk ds)
    | _ => none
  | _ => none

/-- Anchored match of `\(#(\d+)\)` (the nominal-value reference search). -/
def parenHashNumMatcher : List Char → Option String
  | '(' :: '#' :: r =>
    let ds := r.takeWhile isDigitC
    if ds.isEmpty then none else
    match r.dropWhile isDigitC with
    | ')' :: _ => some (String.mk ds)
    | _ => none
  | _ => none

/-- Python `str.title()` (ASCII model): uppercase a letter that follows a
non-letter, lowercase a letter that follows a letter. -/
def pyTitleAux : List Char → Bool → List Char
  | [], _ => []
  | c :: cs, prevAlpha =>
    let isAl := isUpperAZ c || isLowerAZ c
    (if isAl then (if prevAlpha then lowerC c else upperC c) else c) :: pyTitleAux cs isAl

def pyTitle (s : String) : String := String.mk (pyTitleAux s.data false)

/-! ## Dimensional Tolerance Extractor: the two sub-scans (source lines 296-554) -/

/-- The nominal-value chase for one dimension id (source lines 396-407 and
477-487): scan every line mentioning both the dimension id and
`DIMENSIONAL_CHARACTERISTIC_REPRESENTATION`, follow `#(\d+)\)` to the
representation line and `\(#(\d+)\)` to the measure entity; each hit
reassigns the value (to `none` when the measure entity is unknown). -/
def nominalFor (lines : List String) (line_dict : Dict String) (nominal_values : Dict Dec)
    (dim_id : String) : Option Dec :=
  lines.foldl
    (fun acc line =>
      if subS dim_id line && subS "DIMENSIONAL_CHARACTERISTIC_REPRESENTATION" line then
        match reSearch hashNumParenMatcher line.data with
        | some rd =>
          let repr_line := dgetD line_dict ("#" ++ rd) ""
          match reSearch parenHashNumMatcher repr_line.data with
          | some nd => dget? nominal_values ("#" ++ nd)
          | none => acc
        | none => acc
      else acc)
    none

/-- The tolerance range / limits strings for one dimension id (source lines
409-426 and 489-506): `(tolerance_range, upper_limit, lower_limit)`.  The
stored triple is `(lower, upper, range)`; a falsy nominal (absent or `0.0`)
leaves the limits empty. -/
def tolTriple (dimension_to_tolerance : Dict String) (tolerance_values : Dict (Dec × Dec × Dec))
    (dim_id : String) (nominal : Option Dec) : String × String × String :=
  match dget? dimension_to_tolerance dim_id with
  | some tol_val_id =>
    match dget? tolerance_values tol_val_id with
    | some t =>
      let range_str := "¬±" ++ format3 t.2.2.half
      match nominal with
      | some nv =>
        if nv.isZero then (range_str, "", "")
        else (range_str, format3 (nv.add t.2.1), format3 (nv.add t.1))
      | none => (range_str, "", "")
    | none => ("", "", "")
  | none => ("", "", "")

/-- Python `str(x) if x else "N/A"` for the float-or-empty nominal slot
(`0.0` is falsy). -/
def nominalStr (v : Option Dec) : String :=
  match v with
  | some q => if q.isZero then "N/A" else pyFloatStr q
  | none => "N/A"

/-- The `LENGTH_MEASURE` table (source lines 344-350). -/
def lengthMeasuresOf (lines : List String) : Dict Dec :=
  ((lines.map (fun l => reFindAll lengthMeasureMatcher l.data)).flatten).foldl
    (fun d m =>
      match pyFloat? m.2 with
      | some q => dinsert d m.1 q
      | none => d)
    []

/-- The `POSITIVE_LENGTH_MEASURE` nominal table (source lines 352-361). -/
def nominalValuesOf (lines : List String) : Dict Dec :=
  lines.foldl
    (fun d line =>
      match reSearch posLMMatcher line.data with
      | some g =>
        match matchEntityId line.data with
        | some id =>
          match pyFloat? g with
          | some q => dinsert d id q
          | none => d
        | none => d
      | none => d)
    []

/-- The `TOLERANCE_VALUE` table (source lines 363-372). -/
def toleranceValuesOf (lines : List String) (length_measures : Dict Dec) :
    Dict (Dec × Dec × Dec) :=
  ((lines.map (fun l => reFindAll (twoRefMatcher "TOLERANCE_VALUE".data) l.data)).flatten).foldl
    (fun d m =>
      let lower := dgetD length_measures m.2.1 Dec.zero
      let upper := dgetD length_measures m.2.2 Dec.zero
      dinsert d m.1 (lower, upper, (upper.sub lower).abs))
    []

/-- The `PLUS_MINUS_TOLERANCE` link table (source lines 374-380). -/
def dimensionToToleranceOf (lines : List String) : Dict String :=
  ((lines.map (fun l =>
      reFindAll (twoRefMatcher "PLUS_MINUS_TOLERANCE".data) l.data)).flatten).foldl
    (fun d m => dinsert d m.2.2 m.2.1)
    []

/-- One `DIMENSIONAL_SIZE` row (source lines 383-453). -/
def dimSizeRow (lines : List String)
    (line_dict : Dict String) (nominal_values : Dict Dec)
    (dimension_to_tolerance : Dict String) (tolerance_values : Dict (Dec × Dec × Dec))
    (datum_results datum_letter_to_feature : Dict String)
    (m : String × String × String) : Except Unit Row := do
  let dim_size_id := m.1
  let shape_aspect_line := dgetD line_dict m.2.1 ""
  let feature_name := (reSearch saNameMatcher shape_aspect_line.data).getD ""
  let diameter_value := nominalFor lines line_dict nominal_values dim_size_id
  let t := tolTriple dimension_to_tolerance tolerance_values dim_size_id diameter_value
  let datum_letter ←
    find_datum_for_dimensional_tolerance feature_name datum_results datum_letter_to_feature
  let location :=
    if subS "boss" (pyLower feature_name) then "cylindrical side" else "cylindrical surface"
  let symbol := dgetD gdnt_symbols "Diameter" "‚åÄ"
  pure ⟨symbol ++ " Diameter", nominalStr diameter_value, datum_letter,
        location, "curved side of the cylinder", t.1, t.2.1, t.2.2⟩

/-- The datum chain of the `DIMENSIONAL_LOCATION` case (source lines 508-524):
first feature name, then the second, then the combined name. -/
def locDatumChain (fn1 fn2 combined : String) (datum_results datum_letter_to_feature : Dict String) :
    Except Unit String := do
  let dl1 ←
    if fn1 ≠ "" then find_datum_for_dimensional_tolerance fn1 datum_results datum_letter_to_feature
    else pure ""
  let dl2 ←
    if dl1 = "" && fn2 ≠ "" then
      find_datum_for_dimensional_tolerance fn2 datum_results datum_letter_to_feature
    else pure dl1
  if dl2 = "" then
    find_datum_for_dimensional_tolerance combined datum_results datum_letter_to_feature
  else pure dl2

/-- One `DIMENSIONAL_LOCATION` row (source lines 456-548). -/
def dimLocRow (lines : List String)
    (line_dict : Dict String) (nominal_values : Dict Dec)
    (dimension_to_tolerance : Dict String) (tolerance_values : Dict (Dec × Dec × Dec))
    (datum_results datum_letter_to_feature : Dict String)
    (m : String × String × String × String) : Except Unit Row := do
  let dim_loc_id := m.1
  let distance_type := m.2.1
  let sa1 := dgetD line_dict ("#" ++ m.2.2.1) ""
  let sa2 := dgetD line_dict ("#" ++ m.2.2.2) ""
  let feature_name1 := (reSearch saNameMatcher sa1.data).getD ""
  let feature_name2 := (reSearch saNameMatcher sa2.data).getD ""
  let combined_feature_name := feature_name1 ++ " to " ++ feature_name2
  let distance_value := nominalFor lines line_dict nominal_values dim_loc_id
  let t := tolTriple dimension_to_tolerance tolerance_values dim_loc_id distance_value
  let datum_letter ←
    locDatumChain feature_name1 feature_name2 combined_feature_name datum_results
      datum_letter_to_feature
  let locsurf :=
    if feature_name1 ≠ "" && feature_name2 ≠ "" &&
       subS "plane" (pyLower feature_name1) && subS "plane" (pyLower feature_name2)
    then ("between planes", "planar faces")
    else ("between surfaces", "linear distance")
  let symbol := dgetD gdnt_symbols "Linear Distance" "‚Üî"
  let ty := if distance_type ≠ "" then symbol ++ " " ++ pyTitle distance_type
            else symbol ++ " Length"
  pure ⟨ty, nominalStr distance_value, datum_letter,
        locsurf.1, locsurf.2, t.1, t.2.1, t.2.2⟩

/-- `GDTExtractor.extract_dimensional_tolerances`, body of the `try`
(source lines 306-550); `.error ()` models the one reachable exception
(the `datum_letters[-1]` IndexError of the datum matcher). -/
def extract_dimensional_tolerances_core (lines : List String)
    (line_dict datum_results datum_letter_to_feature : Dict String) :
    Except Unit (List Row) := do
  let length_measures := lengthMeasuresOf lines
  let nominal_values := nominalValuesOf lines
  let tolerance_values := toleranceValuesOf lines length_measures
  let dimension_to_tolerance := dimensionToToleranceOf lines
  let sizeRows ← ((lines.map (fun l => reFindAll dimSizeMatcher l.data)).flatten).mapM
    (dimSizeRow lines line_dict nominal_values dimension_to_tolerance tolerance_values
      datum_results datum_letter_to_feature)
  let locRows ← ((lines.map (fun l => reFindAll dimLocMatcher l.data)).flatten).mapM
    (dimLocRow lines line_dict nominal_values dimension_to_tolerance tolerance_values
      datum_results datum_letter_to_feature)
  pure (sizeRows ++ locRows)

/-- `GDTExtractor.extract_dimensional_tolerances` with its `except` branch
(source lines 552-554): any exception yields the empty row list. -/
def extract_dimensional_tolerances (lines : List String)
    (line_dict datum_results datum_letter_to_feature : Dict String) : List Row :=
  match extract_dimensional_tolerances_core lines line_dict datum_results
      datum_letter_to_feature with
  | .ok rs => rs
  | .error _ => []

/-! ## Result Assembler and entry point (source lines 556-815) -/

/-- The geometric Location→Surface normalisation (source lines 786-795). -/
def geom_surface (loc : String) : String :=
  if loc = "cylindrical side" then "curved side of the cylinder"
  else if loc = "bottom face" then "bottom face"
  else if loc = "top face" then "top face"
  else if loc = "planar surface" then "planar face"
  else if loc ≠ "" then loc else "surface"

/-- `GDTExtractor.extract_tolerance_data`: the full extraction.  The input is
the file text as its list of lines (`text.splitlines()`).  The body of the
source is wrapped in `try/except → []`; every operation of this model is
total (the one reachable exception, inside the dimensional extractor, is
already caught there), so the wrapper has no observable effect here. -/
def extract_tolerance_data (lines : List String) : List Row :=
  let line_dict := buildLineDict lines
  let scans := datumScan lines
  let datum_letter_to_feature := scans.2
  let datum_results := (shapeAspectScan lines scans.1).2
  let tol_results := geomRows lines line_dict datum_results datum_letter_to_feature
  let dimensional := extract_dimensional_tolerances lines line_dict datum_results
    datum_letter_to_feature
  let geo : List Row := tol_results.map (fun g =>
    let symbol := dgetD gdnt_symbols g.1 ""
    let type_with_symbol := if symbol ≠ "" then symbol ++ " " ++ g.1 else g.1
    let loc := g.2.2.2
    ⟨type_with_symbol, g.2.1, g.2.2.1, if loc ≠ "" then loc else "surface",
     geom_surface loc, "", "", ""⟩)
  let datumRows : List Row := datum_letter_to_feature.map (fun p =>
    let location_str := dgetD datum_results p.1 "surface"
    ⟨"Datum", p.1, p.1, location_str, location_str, "", "", ""⟩)
  geo ++ dimensional ++ datumRows

/-! ## Concrete scenario inputs and auxiliary constructions -/

/-- The C1 end-to-end scenario: one DATUM line for `A`, one cylindricity
tolerance named `Tol(A)`, and the referenced entity defining
`LENGTH_MEASURE(0.05)`. -/
def scenario_cylindricity : List String :=
  ["#10=DATUM('Datum1@Boss1(A)',$,#1,.F.,'A');",
   "#20=CYLINDRICITY_TOLERANCE('Tol(A)','',#30);",
   "#30=LENGTH_MEASURE_WITH_UNIT(LENGTH_MEASURE(0.05),#2);"]

/-- The C2 end-to-end scenario: a `DIMENSIONAL_SIZE` on a Boss shape aspect,
linked via `PLUS_MINUS_TOLERANCE` → `TOLERANCE_VALUE` → two `LENGTH_MEASURE`
values `0.1` / `-0.1`, with nominal `10.0` through the
characteristic-representation chain. -/
def scenario_dimensional : List String :=
  ["#100=SHAPE_ASPECT('Boss1','',#1,.T.);",
   "#101=DIMENSIONAL_SIZE(#100,'diameter');",
   "#102=PLUS_MINUS_TOLERANCE(#103,#101);",
   "#103=TOLERANCE_VALUE(#104,#105);",
   "#104=LENGTH_MEASURE_WITH_UNIT(LENGTH_MEASURE(-0.1),#60);",
   "#105=LENGTH_MEASURE_WITH_UNIT(LENGTH_MEASURE(0.1),#60);",
   "#106=DIMENSIONAL_CHARACTERISTIC_REPRESENTATION(#101,#107);",
   "#107=SHAPE_DIMENSION_REPRESENTATION('',(#108),#61);",
   "#108=POSITIVE_LENGTH_MEASURE(10.0);"]

/-- The C3 counterexample input: a flatness tolerance whose name carries the
parenthesised letter `Q` while no datum at all is defined. -/
def scenario_unknown_letter : List String :=
  ["#20=FLATNESS_TOLERANCE('Tol(Q)','',#30);",
   "#30=LENGTH_MEASURE_WITH_UNIT(LENGTH_MEASURE(0.05),#2);"]

/-- The C7 counterexample input: two datums and four straightness tolerances,
all four reaching the final fallback tier. -/
def scenario_straightness : List String :=
  ["#1=DATUM('D1@Boss1(A)',$,#2,.F.,'A');",
   "#3=DATUM('D2@Plane1(B)',$,#4,.F.,'B');",
   "#11=STRAIGHTNESS_TOLERANCE('T1','',#50);",
   "#12=STRAIGHTNESS_TOLERANCE('T2','',#50);",
   "#13=STRAIGHTNESS_TOLERANCE('T3','',#50);",
   "#14=STRAIGHTNESS_TOLERANCE('T4','',#50);",
   "#50=LENGTH_MEASURE_WITH_UNIT(LENGTH_MEASURE(0.01),#5);"]

/-- Modelled from the spec: "round-robin assignment across all currently
known datum letters, indexed by how many tolerance rows have been produced so
far" — i.e. `datums[count % len(datums)]`. -/
def spec_round_robin_datum (datums : List String) (count : Nat) : Option String :=
  datums[count % datums.length]?

/-- The C9 counterexample input: a shape-aspect line whose inline parenthesised
character is the lowercase `x` (the pattern's group is `(\w)?`, not `[A-Z]`). -/
def scenario_lowercase_key : List String :=
  ["#5=SHAPE_ASPECT('Plane1(x',$,#7);"]

/-- The name part `X@Y(L)` of a well-formed DATUM line. -/
def datumNameOf (X Y : List Char) (L : Char) : List Char :=
  X ++ '@' :: Y ++ '(' :: L :: [')']

/-- A well-formed `#n=DATUM('X@Y(L)',$,#m,.F.,'L');` line assembled from its
parts. -/
def mkDatumLine (n X Y : List Char) (L : Char) (m : List Char) : String :=
  String.mk ('#' :: n ++ "=DATUM('".data ++ datumNameOf X Y L ++ "',$,#".data ++ m
    ++ ",.F.,'".data ++ L :: "');".data)

/-- A three-line input whose dimensional extractor emits one Diameter row
with datum letter `A`. -/
def wit3lines : List String :=
  ["#1=DATUM('D1@Boss1(A)',$,#2,.F.,'A');",
   "#70=SHAPE_ASPECT('Boss1','',#2);",
   "#80=DIMENSIONAL_SIZE(#70,'diameter');"]

/-! ## Helper lemmas -/

/-- A `Char.ofNat` at a valid code point keeps its value. -/
theorem toNat_ofNat_valid (n : Nat) (h : n.isValidChar) : (Char.ofNat n).toNat = n := by
  unfold Char.ofNat
  rw [dif_pos h]
  rfl

/-- Lowercasing never produces an ASCII uppercase letter — the fact that makes
the `[A-Z]` searches inside lowercased strings dead code. -/
theorem isUpperAZ_lowerC (c : Char) : isUpperAZ (lowerC c) = false := by
  unfold lowerC
  split
  · rename_i h
    simp only [isUpperAZ, Bool.and_eq_true, decide_eq_true_eq] at h
    have hv : (c.toNat + 32).isValidChar := Or.inl (by omega)
    simp only [isUpperAZ, toNat_ofNat_valid _ hv]
    simp only [Bool.and_eq_false_iff, decide_eq_false_iff_not]
    omega
  · rename_i h
    simpa using h

theorem takeWhile_append_eq {p : Char → Bool} (xs : List Char) (y : Char) (ys : List Char)
    (hxs : ∀ x ∈ xs, p x = true) (hy : p y = false) :
    (xs ++ y :: ys).takeWhile p = xs := by
  induction xs with
  | nil => simp [List.takeWhile_cons, hy]
  | cons a l ih =>
    have ha := hxs a (List.mem_cons_self a l)
    simp only [List.cons_append, List.takeWhile_cons, ha, if_true]
    rw [ih (fun x hx => hxs x (List.mem_cons_of_mem a hx))]

theorem dropWhile_append_eq {p : Char → Bool} (xs : List Char) (y : Char) (ys : List Char)
    (hxs : ∀ x ∈ xs, p x = true) (hy : p y = false) :
    (xs ++ y :: ys).dropWhile p = y :: ys := by
  induction xs with
  | nil => simp [List.dropWhile_cons, hy]
  | cons a l ih =>
    have ha := hxs a (List.mem_cons_self a l)
    simp only [List.cons_append, List.dropWhile_cons, ha, if_true]
    exact ih (fun x hx => hxs x (List.mem_cons_of_mem a hx))

theorem expectL_append (ps rest : List Char) : expectL ps (ps ++ rest) = some rest := by
  induction ps with
  | nil => rfl
  | cons a l ih => simp [expectL, ih]

theorem expectL_suffix : ∀ (ps cs r : List Char), expectL ps cs = some r → r <:+ cs := by
  intro ps
  induction ps with
  | nil =>
    intro cs r h
    cases h
    exact List.suffix_refl _
  | cons p ps ih =>
    intro cs r h
    cases cs with
    | nil => cases h
    | cons c cs =>
      by_cases hc : c == p
      · simp only [expectL, hc, if_true] at h
        exact (ih cs r h).trans (List.suffix_cons c cs)
      · simp [expectL, hc] at h

theorem m1Matcher_none_of_no_upper (cs : List Char)
    (h : ∀ c ∈ cs, isUpperAZ c = false) : m1Matcher cs = none := by
  unfold m1Matcher
  split
  · rename_i r heq
    have hr : r <:+ cs := expectL_suffix _ _ _ heq
    split
    · rename_i r2 heq2
      split
      · rename_i c tail heq3
        have hc : c ∈ cs := by
          have h1 : c ∈ r2.dropWhile (· != '(') := by rw [heq3]; simp
          have h2 : c ∈ r2 := (List.dropWhile_sublist _).subset h1
          have h3 : c ∈ r.dropWhile isDigitC := by rw [heq2]; exact List.mem_cons_of_mem _ h2
          exact hr.subset ((List.dropWhile_sublist _).subset h3)
        simp [h c hc]
      · simp
    · simp
  · rfl

theorem reSearch_none {α : Type} (m : List Char → Option α) :
    ∀ (cs : List Char), (∀ cs', cs' <:+ cs → m cs' = none) → reSearch m cs = none := by
  intro cs
  induction cs with
  | nil =>
    intro h
    exact h [] (List.suffix_refl _)
  | cons c cs ih =>
    intro h
    simp only [reSearch]
    rw [h (c :: cs) (List.suffix_refl _)]
    exact ih (fun cs' hs => h cs' (hs.trans (List.suffix_cons c cs)))

/-- The `datum\d+@[^(]*\(([A-Z])\)` search inside a lowercased string can
never succeed: lowercasing leaves no ASCII uppercase character to match. -/
theorem m1Search_pyLower_none (s : String) : m1Search (pyLower s).data = none := by
  apply reSearch_none
  intro cs' hs
  apply m1Matcher_none_of_no_upper
  intro c hc
  have hmem : c ∈ (pyLower s).data := hs.subset hc
  have : c ∈ s.data.map lowerC := hmem
  obtain ⟨a, -, rfl⟩ := List.mem_map.mp this
  exact isUpperAZ_lowerC a

/-- Likewise for the plain `\(([A-Z])\)` search inside a lowercased string. -/
theorem parenUpperSearch_pyLower_none (s : String) :
    parenUpperSearch (pyLower s).data = none := by
  apply reSearch_none
  intro cs' hs
  unfold parenUpperMatcher
  split
  · rename_i c rest
    have hc : c ∈ (pyLower s).data := hs.subset (by simp)
    obtain ⟨a, -, rfl⟩ := List.mem_map.mp hc
    simp [isUpperAZ_lowerC a]
  · rfl

/-! ## Key-shape lemmas for the datum map -/

theorem parseDatumLine_upper (cs : List Char) (nm : String) (L : Char)
    (h : parseDatumLine cs = some (nm, L)) : isUpperAZ L = true := by
  unfold parseDatumLine at h
  dsimp only [] at h
  split at h
  case h_2 => cases h
  case h_1 r =>
    split at h
    case isTrue => cases h
    case isFalse =>
      split at h
      case h_1 => cases h
      case h_2 r2 =>
        split at h
        case h_1 => cases h
        case h_2 r4 =>
          split at h
          case isTrue => cases h
          case isFalse =>
            split at h
            case h_1 => cases h
            case h_2 r6 =>
              split at h
              case h_2 => cases h
              case h_1 l tail =>
                split at h
                case isTrue hg => cases h; exact hg
                case isFalse => cases h

theorem word_of_upper {c : Char} (h : isUpperAZ c = true) : isWordC c = true := by
  simp [isWordC, h]

theorem mem_dkeys_dinsert {α : Type} (d : Dict α) (k : String) (v : α) (x : String)
    (hx : x ∈ dkeys (dinsert d k v)) : x ∈ dkeys d ∨ x = k := by
  unfold dinsert at hx
  split at hx
  · unfold dkeys at hx
    rw [List.map_map] at hx
    obtain ⟨p, hp, he⟩ := List.mem_map.mp hx
    by_cases hpk : p.1 = k
    · right
      simp only [Function.comp, hpk, beq_self_eq_true, if_true] at he
      exact he.symm
    · left
      have hpk' : (p.1 == k) = false := by simp [hpk]
      simp only [Function.comp, hpk', Bool.false_eq_true, if_false] at he
      exact he ▸ List.mem_map.mpr ⟨p, hp, rfl⟩
  · unfold dkeys at hx
    rw [List.map_append] at hx
    rcases List.mem_append.mp hx with h1 | h2
    · exact Or.inl h1
    · right
      simpa using h2

theorem mem_dkeys_dinsert_self {α : Type} (d : Dict α) (k : String) (v : α) :
    k ∈ dkeys (dinsert d k v) := by
  unfold dinsert
  split
  · rename_i hc
    unfold dcontains dget? at hc
    rw [Option.isSome_map'] at hc
    obtain ⟨p, hp⟩ := Option.isSome_iff_exists.mp hc
    have hk := List.find?_some hp
    have hmem := List.mem_of_find?_eq_some hp
    unfold dkeys
    rw [List.map_map]
    refine List.mem_map.mpr ⟨p, hmem, ?_⟩
    simp only [Function.comp, hk, if_true]
  · unfold dkeys
    rw [List.map_append]
    simp

theorem mem_dkeys_dinsert_of_mem {α : Type} (d : Dict α) (k : String) (v : α) (x : String)
    (hx : x ∈ dkeys d) : x ∈ dkeys (dinsert d k v) := by
  unfold dinsert
  split
  · unfold dkeys at *
    rw [List.map_map]
    obtain ⟨p, hp, he⟩ := List.mem_map.mp hx
    refine List.mem_map.mpr ⟨p, hp, ?_⟩
    by_cases hpk : p.1 = k
    · simp only [Function.comp, hpk, beq_self_eq_true, if_true]
      rw [← he, hpk]
    · have hpk' : (p.1 == k) = false := by simp [hpk]
      simp only [Function.comp, hpk', Bool.false_eq_true, if_false]
      exact he
  · unfold dkeys at *
    rw [List.map_append]
    exact List.mem_append.mpr (Or.inl hx)

theorem saComma_letter (letter : Option Char) (r2 : List Char)
    (out : (Option Char × String) × List Char) (h : saComma letter r2 = some out) :
    out.1.1 = letter := by
  unfold saComma at h
  split at h
  · split at h
    · cases h; rfl
    · cases h
  · cases h

theorem saQuoteComma_letter (letter : Option Char) (r2 : List Char)
    (out : (Option Char × String) × List Char) (h : saQuoteComma letter r2 = some out) :
    out.1.1 = letter := by
  unfold saQuoteComma at h
  split at h
  · rcases (Option.orElse_eq_some' _ _ _).mp h with h1 | ⟨-, h1⟩ <;> exact saComma_letter _ _ _ h1
  · exact saComma_letter _ _ _ h

theorem saAfterParen_letter (r : List Char) (out : (Option Char × String) × List Char)
    (h : saAfterParen r = some out) :
    out.1.1 = none ∨ ∃ c, out.1.1 = some c ∧ isWordC c = true := by
  unfold saAfterParen at h
  split at h
  · rename_i w r2
    split at h
    · rename_i hw
      rcases (Option.orElse_eq_some' _ _ _).mp h with h1 | ⟨-, h1⟩
      · exact Or.inr ⟨w, saQuoteComma_letter _ _ _ h1, hw⟩
      · exact Or.inl (saQuoteComma_letter _ _ _ h1)
    · exact Or.inl (saQuoteComma_letter _ _ _ h)
  · cases h

theorem saName_letter (r : List Char) : ∀ (acc : List Char)
    (out : (String × Option Char × String) × List Char), saName acc r = some out →
    out.1.2.1 = none ∨ ∃ c, out.1.2.1 = some c ∧ isWordC c = true := by
  induction r with
  | nil => intro acc out h; cases h
  | cons a r ih =>
    intro acc out h
    rw [saName] at h
    by_cases h1 : a = '\''
    · rw [if_pos h1] at h
      cases h
    · rw [if_neg h1] at h
      by_cases h2 : a = '('
      · rw [if_pos h2] at h
        split at h
        · rename_i pr hsa
          cases h
          exact saAfterParen_letter _ _ hsa
        · exact ih _ _ h
      · rw [if_neg h2] at h
        exact ih _ _ h

theorem shapeAspectMatch_letter (cs : List Char)
    (out : (String × Option Char × String) × List Char) (h : shapeAspectMatch cs = some out) :
    out.1.2.1 = none ∨ ∃ c, out.1.2.1 = some c ∧ isWordC c = true := by
  unfold shapeAspectMatch at h
  dsimp only [] at h
  split at h
  · rename_i r
    split at h
    · cases h
    · split at h
      · split at h
        · exact saName_letter _ _ _ h
        · cases h
      · cases h
  · cases h

theorem reFindAllAux_forall {α : Type} (m : List Char → Option (α × List Char))
    (P : α → Prop) (hm : ∀ cs out, m cs = some out → P out.1) :
    ∀ (fuel : Nat) (l : List Char) (x : α), x ∈ reFindAllAux m fuel l → P x := by
  intro fuel
  induction fuel with
  | zero => intro l x hx; cases hx
  | succ f ih =>
    intro l x hx
    cases l with
    | nil => cases hx
    | cons c cs =>
      unfold reFindAllAux at hx
      split at hx
      · rename_i pr hpr
        rcases List.mem_cons.mp hx with rfl | h2
        · exact hm _ _ hpr
        · exact ih _ _ h2
      · exact ih _ _ hx

theorem foldl_preserve_mem {β γ : Type} (P : β → Prop) (R : γ → Prop) (step : β → γ → β)
    (hstep : ∀ acc x, R x → P acc → P (step acc x)) :
    ∀ (l : List γ) (acc : β), (∀ x ∈ l, R x) → P acc → P (l.foldl step acc) := by
  intro l
  induction l with
  | nil => intro acc _ h; exact h
  | cons x xs ih =>
    intro acc hR h
    exact ih _ (fun y hy => hR y (List.mem_cons_of_mem x hy))
      (hstep acc x (hR x (List.mem_cons_self x xs)) h)

theorem shapeAspectFinds_letter (lines : List String) (m : String × Option Char × String)
    (hm : m ∈ shapeAspectFinds lines) :
    m.2.1 = none ∨ ∃ c, m.2.1 = some c ∧ isWordC c = true := by
  unfold shapeAspectFinds at hm
  obtain ⟨sub, hsub, hm2⟩ := List.mem_flatten.mp hm
  obtain ⟨l', -, rfl⟩ := List.mem_map.mp hsub
  exact reFindAllAux_forall shapeAspectMatch
    (fun x => x.2.1 = none ∨ ∃ c, x.2.1 = some c ∧ isWordC c = true)
    (fun cs out h => shapeAspectMatch_letter cs out h) _ _ _ hm2

/-- C9 amended: after a full extraction run every key of the datum→location
map is a *single word character* — the datum scan contributes single
uppercase letters, but the shape-aspect scan inserts whatever single `\w`
character its optional group captured (lowercase letters, digits or `_`),
so "single uppercase letter A-Z" does not hold (see the counterexample). -/
theorem C9_datum_map_keys_single_word_chars (lines : List String) (k : String)
    (hk : k ∈ dkeys (datumMaps lines).1) :
    ∃ c, k.data = [c] ∧ isWordC c = true := by
  have h1 : ∀ k ∈ dkeys (datumScan lines).1, ∃ c, k.data = [c] ∧ isWordC c = true := by
    unfold datumScan
    refine foldl_preserve_mem
      (fun acc => ∀ k ∈ dkeys acc.1, ∃ c, k.data = [c] ∧ isWordC c = true)
      (fun _ => True) datumScanStep ?_ lines ([], []) (fun _ _ => trivial) (by simp [dkeys])
    intro acc line _ hacc k hk
    unfold datumScanStep at hk
    split at hk
    · rename_i fn letter heq
      rcases mem_dkeys_dinsert _ _ _ _ hk with h | rfl
      · exact hacc k h
      · exact ⟨letter, rfl, word_of_upper (parseDatumLine_upper _ _ _ heq)⟩
    · exact hacc k hk
  have h2 : ∀ k ∈ dkeys (shapeAspectScan lines (datumScan lines).1).2,
      ∃ c, k.data = [c] ∧ isWordC c = true := by
    unfold shapeAspectScan
    refine foldl_preserve_mem
      (fun acc => ∀ k ∈ dkeys acc.2, ∃ c, k.data = [c] ∧ isWordC c = true)
      (fun m => m.2.1 = none ∨ ∃ c, m.2.1 = some c ∧ isWordC c = true)
      shapeAspectStep ?_ (shapeAspectFinds lines) ([], (datumScan lines).1)
      (shapeAspectFinds_letter lines) h1
    intro acc m hR hacc k hk
    unfold shapeAspectStep at hk
    dsimp only [] at hk
    split at hk
    · rename_i c heq
      rcases mem_dkeys_dinsert _ _ _ _ hk with h | rfl
      · exact hacc k h
      · rcases hR with hnone | ⟨c', hc', hw⟩
        · rw [hnone] at heq; cases heq
        · rw [hc'] at heq
          cases heq
          exact ⟨_, rfl, hw⟩
    · exact hacc k hk
  unfold datumMaps at hk
  exact h2 k hk

/-! ## Concrete scenarios -/

/-- C1: on the end-to-end scenario input the extraction yields exactly the
geometric row (Cylindricity with its display glyph — the source's
double-encoded literal `‚åÄ` — value `0.05`, datum `A`, location
`cylindrical side`, surface `curved side of the cylinder`, empty numeric
columns) followed by the datum row (`Datum`, value and datum both `A`). -/
theorem C1_cylindricity_end_to_end :
    extract_tolerance_data scenario_cylindricity =
      [⟨"‚åÄ Cylindricity", "0.05", "A", "cylindrical side",
        "curved side of the cylinder", "", "", ""⟩,
       ⟨"Datum", "A", "A", "cylindrical side", "cylindrical side", "", "", ""⟩] := by
  decide

/-- C2 counterexample: on the claimed scenario the tolerance-range string the
code produces is `"¬±0.100"` — the `±` of the f-string literal is stored
double-encoded in the source file as the two characters `¬` `±` — and not the
claimed plain `"±0.100"`. -/
theorem C2_range_string_counterexample :
    (extract_tolerance_data scenario_dimensional).map Row.tolerance_value = ["¬±0.100"] ∧
    ("¬±0.100" : String) ≠ "±0.100" := by
  decide

/-- C2 amended: the scenario yields the Diameter row with tolerance range
`"¬±0.100"` (the `±` sign as stored in the source's double-encoded literal,
followed by exactly three decimals), upper limit `"10.100"` and lower limit
`"9.900"` (exactly three decimals each), nominal rendered `"10.0"`. -/
theorem C2_dimensional_end_to_end :
    extract_tolerance_data scenario_dimensional =
      [⟨"‚åÄ Diameter", "10.0", "", "cylindrical side", "curved side of the cylinder",
        "¬±0.100", "10.100", "9.900"⟩] := by
  decide

/-- C3 counterexample: the geometric extractor copies the parenthesised
letter `Q` of the tolerance name into the row without any membership check,
while the datum→location map of the same run has no keys at all — so a row
carries a non-empty datum letter that is not a key of the map. -/
theorem C3_referential_integrity_counterexample :
    (extract_tolerance_data scenario_unknown_letter).map Row.datum = ["Q"] ∧
    dkeys (datumMaps scenario_unknown_letter).1 = [] := by
  decide

/-- C7 counterexample: with datums `A`, `B` the fourth straightness row
(three rows already produced) receives datum `A` — the code reuses the first
datum once the row count reaches the number of datums — whereas round-robin
indexing would give `datums[3 % 2] = B`; repeated straightness tolerances do
not cycle. -/
theorem C7_round_robin_counterexample :
    ((extract_tolerance_data scenario_straightness)[3]?).map Row.datum = some "A" ∧
    spec_round_robin_datum (dkeys (datumMaps scenario_straightness).1) 3 = some "B" ∧
    ("A" : String) ≠ "B" := by
  decide

/-- C9 counterexample: after a full run on the scenario the datum→location
map has exactly the key `"x"`, which is not an uppercase letter — the
shape-aspect scan inserts any word character its `(\w)?` group captures. -/
theorem C9_lowercase_key_counterexample :
    dkeys (datumMaps scenario_lowercase_key).1 = ["x"] ∧
    (∀ c ∈ ("x" : String).data, isUpperAZ c = false) := by
  decide

theorem expectL_datumLit (rest : List Char) :
    expectL ['=', 'D', 'A', 'T', 'U', 'M', '(', '\'']
      ('=' :: (['D', 'A', 'T', 'U', 'M', '(', '\''] ++ rest)) = some rest :=
  expectL_append _ _

theorem expectL_dollarLit (rest : List Char) :
    expectL ['\'', ',', '$', ',', '#'] ('\'' :: ([',', '$', ',', '#'] ++ rest)) = some rest :=
  expectL_append _ _

theorem expectL_fLit (rest : List Char) :
    expectL [',', '.', 'F', '.', ',', '\''] (',' :: (['.', 'F', '.', ',', '\''] ++ rest)) = some rest :=
  expectL_append _ _

/-- The datum-line regex accepts every well-formed constructed line, capturing
the name `X@Y(L)` and the letter `L`. -/
theorem parseDatumLine_mk (n X Y : List Char) (L : Char) (m : List Char)
    (hn1 : n ≠ []) (hn2 : ∀ c ∈ n, isDigitC c = true)
    (hm1 : m ≠ []) (hm2 : ∀ c ∈ m, isDigitC c = true)
    (hX : ∀ c ∈ X, c ≠ '\'') (hY : ∀ c ∈ Y, c ≠ '\'')
    (hL : isUpperAZ L = true) :
    parseDatumLine (mkDatumLine n X Y L m).data =
      some (String.mk (datumNameOf X Y L), L) := by
  have hq : L ≠ '\'' := by
    intro he
    subst he
    simp [isUpperAZ] at hL
  have hname : ∀ c ∈ datumNameOf X Y L, (c != '\'') = true := by
    intro c hc
    unfold datumNameOf at hc
    simp only [List.mem_append, List.mem_cons, List.not_mem_nil, or_false] at hc
    rcases hc with (h1 | rfl | h1) | rfl | rfl | rfl
    · simp [hX c h1]
    · decide
    · simp [hY c h1]
    · decide
    · simp [hq]
    · decide
  have hdata : (mkDatumLine n X Y L m).data =
      '#' :: (n ++ '=' :: (['D', 'A', 'T', 'U', 'M', '(', '\''] ++
        (datumNameOf X Y L ++ '\'' :: ([',', '$', ',', '#'] ++
        (m ++ ',' :: (['.', 'F', '.', ',', '\''] ++ L :: ['\'', ')', ';'])))))) := by
    simp [mkDatumLine, datumNameOf, List.append_assoc]
  rw [hdata]
  have hnE : n.isEmpty = false := by cases n with | nil => exact absurd rfl hn1 | cons a l => rfl
  have hmE : m.isEmpty = false := by cases m with | nil => exact absurd rfl hm1 | cons a l => rfl
  simp only [parseDatumLine]
  rw [takeWhile_append_eq n '=' _ hn2 (by decide),
      dropWhile_append_eq n '=' _ hn2 (by decide)]
  simp only [hnE, Bool.false_eq_true, if_false, expectL_datumLit]
  rw [takeWhile_append_eq (datumNameOf X Y L) '\'' _ hname (by decide),
      dropWhile_append_eq (datumNameOf X Y L) '\'' _ hname (by decide)]
  simp only [expectL_dollarLit]
  rw [takeWhile_append_eq m ',' _ hm2 (by decide),
      dropWhile_append_eq m ',' _ hm2 (by decide)]
  simp only [hmE, Bool.false_eq_true, if_false, expectL_fLit]
  simp [hL]

/-- The `@([^(]+)` search finds the token `Y` when the prefix contains no `@`
and the token no `(`. -/
theorem featureTokenAfterAt_first (X Y rest : List Char)
    (hX : ∀ c ∈ X, c ≠ '@') (hY1 : Y ≠ []) (hY2 : ∀ c ∈ Y, c ≠ '(') :
    featureTokenAfterAt (X ++ '@' :: Y ++ '(' :: rest) = some Y := by
  induction X with
  | nil =>
    simp only [List.nil_append, List.cons_append]
    rw [featureTokenAfterAt]
    simp only [if_pos rfl]
    rw [takeWhile_append_eq Y '(' rest (fun c hc => by simp [hY2 c hc]) (by decide)]
    have hYE : Y.isEmpty = false := by
      cases Y with | nil => exact absurd rfl hY1 | cons a l => rfl
    simp [hYE]
  | cons a l ih =>
    have ha : a ≠ '@' := hX a (List.mem_cons_self a l)
    simp only [List.cons_append]
    rw [featureTokenAfterAt]
    simp only [if_neg ha]
    exact ih (fun c hc => hX c (List.mem_cons_of_mem a hc))

/-- The datum scan of a single parsed line. -/
theorem datumScan_single (line : String) (nm : String) (L : Char)
    (hp : parseDatumLine line.data = some (nm, L)) :
    datumScan [line] =
      ([(String.mk [L], datum_location_from_name nm (String.mk [L]))],
       [(String.mk [L], nm)]) := by
  simp [datumScan, datumScanStep, hp, dinsert, dcontains, dget?]

/-- C4 amended: for well-formed `DATUM('X@Y(L)',$,#m,.F.,'L');` lines the map
after the datum scan contains key `L`, and the location stored under `L` is a
deterministic function of the token `Y` *and the datum letter `L`* — two such
lines with the same `Y` and the same `L` but different prefix `X` and entity
references `n`, `m` store the same location.  (Same `Y` alone does not
suffice: the generic-plane branch consults the letter, see the
counterexample.) -/
theorem C4_location_function_of_token_and_letter
    (n1 X1 m1 n2 X2 m2 Y : List Char) (L : Char)
    (hn11 : n1 ≠ []) (hn12 : ∀ c ∈ n1, isDigitC c = true)
    (hm11 : m1 ≠ []) (hm12 : ∀ c ∈ m1, isDigitC c = true)
    (hn21 : n2 ≠ []) (hn22 : ∀ c ∈ n2, isDigitC c = true)
    (hm21 : m2 ≠ []) (hm22 : ∀ c ∈ m2, isDigitC c = true)
    (hX1q : ∀ c ∈ X1, c ≠ '\'') (hX1a : ∀ c ∈ X1, c ≠ '@')
    (hX2q : ∀ c ∈ X2, c ≠ '\'') (hX2a : ∀ c ∈ X2, c ≠ '@')
    (hYq : ∀ c ∈ Y, c ≠ '\'') (hY1 : Y ≠ []) (hYp : ∀ c ∈ Y, c ≠ '(')
    (hL : isUpperAZ L = true) :
    (String.mk [L]) ∈ dkeys (datumScan [mkDatumLine n1 X1 Y L m1]).1 ∧
    dget? (datumScan [mkDatumLine n1 X1 Y L m1]).1 (String.mk [L]) =
      dget? (datumScan [mkDatumLine n2 X2 Y L m2]).1 (String.mk [L]) := by
  rw [datumScan_single _ _ _ (parseDatumLine_mk n1 X1 Y L m1 hn11 hn12 hm11 hm12 hX1q hYq hL),
      datumScan_single _ _ _ (parseDatumLine_mk n2 X2 Y L m2 hn21 hn22 hm21 hm22 hX2q hYq hL)]
  constructor
  · simp [dkeys]
  · simp only [dget?, List.find?, beq_self_eq_true, Option.map_some']
    congr 1
    unfold datum_location_from_name
    have e1 : (String.mk (datumNameOf X1 Y L)).data = X1 ++ '@' :: Y ++ '(' :: (L :: [')']) := rfl
    have e2 : (String.mk (datumNameOf X2 Y L)).data = X2 ++ '@' :: Y ++ '(' :: (L :: [')']) := rfl
    rw [e1, e2, featureTokenAfterAt_first X1 Y _ hX1a hY1 hYp,
        featureTokenAfterAt_first X2 Y _ hX2a hY1 hYp]

/-- Witness for `C4_location_function_of_token_and_letter`: two concrete
lines `#1=DATUM('D1@Boss1(A)',$,#2,.F.,'A');` and
`#3=DATUM('D7@Boss1(A)',$,#4,.F.,'A');`. -/
theorem C4_location_function_of_token_and_letter_witness :
    (['B', 'o', 's', 's', '1'] : List Char) ≠ [] ∧
    isUpperAZ 'A' = true ∧
    ((String.mk ['A']) ∈
        dkeys (datumScan [mkDatumLine ['1'] ['D', '1'] ['B', 'o', 's', 's', '1'] 'A' ['2']]).1 ∧
      dget? (datumScan [mkDatumLine ['1'] ['D', '1'] ['B', 'o', 's', 's', '1'] 'A' ['2']]).1
          (String.mk ['A']) =
        dget? (datumScan [mkDatumLine ['3'] ['D', '7'] ['B', 'o', 's', 's', '1'] 'A' ['4']]).1
          (String.mk ['A'])) :=
  ⟨by decide, by decide,
   C4_location_function_of_token_and_letter ['1'] ['D', '1'] ['2'] ['3'] ['D', '7'] ['4']
     ['B', 'o', 's', 's', '1'] 'A'
     (by decide) (by decide) (by decide) (by decide) (by decide) (by decide)
     (by decide) (by decide) (by decide) (by decide) (by decide) (by decide)
     (by decide) (by decide) (by decide) (by decide)⟩

/-- C7 amended: when a straightness tolerance reaches the final fallback tier
and at least one datum is known, the assigned letter is the datum at index
`count` (the number of tolerance rows produced so far) while `count` is below
the number of known datums, and the *first* datum from then on — the modulo
in the code is evaluated only when `count` is already in range, so repeated
straightness tolerances do not keep cycling. -/
theorem C7_straightness_indexing_no_cycling (datum_results : Dict String) (count : Nat)
    (h : dkeys datum_results ≠ []) :
    (straightness_fallback datum_results count).map Prod.fst =
      some (if count < (dkeys datum_results).length
            then (dkeys datum_results).getD count ""
            else (dkeys datum_results).headD "") := by
  unfold straightness_fallback
  have hne : (dkeys datum_results).isEmpty = false := by
    cases hk : dkeys datum_results with
    | nil => exact absurd hk h
    | cons a l => rfl
  simp only [hne, Bool.false_eq_true, if_false]
  split
  · rename_i hlt
    rw [Nat.mod_eq_of_lt hlt]
    simp [List.getD_eq_getElem?_getD]
  · rename_i hge
    cases hk : dkeys datum_results with
    | nil => exact absurd hk h
    | cons a l => simp [hk]

/-- Witness for `C7_straightness_indexing_no_cycling` at a concrete map and
an out-of-range count. -/
theorem C7_straightness_indexing_no_cycling_witness :
    dkeys ([("A", "cylindrical side"), ("B", "bottom face")] : Dict String) ≠ [] ∧
    (straightness_fallback [("A", "cylindrical side"), ("B", "bottom face")] 5).map Prod.fst =
      some (if 5 < (dkeys ([("A", "cylindrical side"), ("B", "bottom face")] : Dict String)).length
            then (dkeys ([("A", "cylindrical side"), ("B", "bottom face")] : Dict String)).getD 5 ""
            else (dkeys ([("A", "cylindrical side"), ("B", "bottom face")] : Dict String)).headD "") :=
  ⟨by decide,
   C7_straightness_indexing_no_cycling [("A", "cylindrical side"), ("B", "bottom face")] 5
     (by decide)⟩

/-- Witness for `C9_datum_map_keys_single_word_chars` at the concrete
lowercase-key scenario. -/
theorem C9_datum_map_keys_single_word_chars_witness :
    ("x" ∈ dkeys (datumMaps scenario_lowercase_key).1) ∧
    (∃ c, ("x" : String).data = [c] ∧ isWordC c = true) :=
  ⟨by decide, C9_datum_map_keys_single_word_chars scenario_lowercase_key "x" (by decide)⟩

/-- C6: the dimensional-tolerance datum-matching routine lowercases the
feature name before searching for `\(([A-Z])\)`, so the parenthesised-letter
tiers can never match anything: on `"Boss1(B)"` with `B` a known datum the
routine falls through to the feature-type heuristic and returns the *first*
cylindrical datum `A`, not the directly-named `B`.  The second conjunct
records the cause: the uppercase search inside the lowered name finds
nothing. -/
theorem C6_paren_letter_never_resolves :
    find_datum_for_dimensional_tolerance "Boss1(B)"
        [("A", "cylindrical side"), ("B", "cylindrical side")]
        [("A", "Datum1@Boss1(A)"), ("B", "Datum2@Boss2(B)")] = .ok "A" ∧
    parenUpperSearch (pyLower "Boss1(B)").data = none := by
  decide

/-- C4 counterexample: the location stored for a well-formed
`DATUM('X@Y(L)',$,#n,.F.,'L');` line is *not* a function of the token `Y`
alone — for the same token `Plane3`, datum letter `A` is filed under
"bottom face" while datum letter `B` is filed under "cylindrical side"
(the generic-plane tier consults the classifier, which keys on the
letter). -/
theorem C4_same_token_different_location_counterexample :
    dget? (datumScan ["#1=DATUM('D1@Plane3(A)',$,#2,.F.,'A');"]).1 "A" =
      some "bottom face" ∧
    dget? (datumScan ["#3=DATUM('D2@Plane3(B)',$,#4,.F.,'B');"]).1 "B" =
      some "cylindrical side" ∧
    ("bottom face" : String) ≠ "cylindrical side" := by
  decide

/-! ## Membership lemmas for the datum matcher (towards the dimensional
referential-integrity invariant) -/

theorem dcontains_mem {α : Type} (d : Dict α) (k : String) (h : dcontains d k = true) :
    k ∈ dkeys d := by
  unfold dcontains dget? at h
  rw [Option.isSome_map'] at h
  obtain ⟨p, hp⟩ := Option.isSome_iff_exists.mp h
  have hk : p.1 = k := by simpa using List.find?_some hp
  have hmem := List.mem_of_find?_eq_some hp
  rw [← hk]
  exact List.mem_map.mpr ⟨p, hmem, rfl⟩

theorem find?_fst_mem_dkeys {α : Type} (d : Dict α) (pred : String × α → Bool)
    (p : String × α) (h : d.find? pred = some p) : p.1 ∈ dkeys d :=
  List.mem_map.mpr ⟨p, List.mem_of_find?_eq_some h, rfl⟩

theorem mem_insertSorted (x y : String) (l : List String)
    (h : y ∈ insertSorted x l) : y = x ∨ y ∈ l := by
  induction l with
  | nil =>
    simp only [insertSorted, List.mem_singleton] at h
    exact Or.inl h
  | cons z zs ih =>
    simp only [insertSorted] at h
    split at h
    · simp only [List.mem_cons] at h
      rcases h with h | h | h
      · exact Or.inl h
      · exact Or.inr (List.mem_cons.mpr (Or.inl h))
      · exact Or.inr (List.mem_cons.mpr (Or.inr h))
    · simp only [List.mem_cons] at h
      rcases h with h | h
      · exact Or.inr (List.mem_cons.mpr (Or.inl h))
      · rcases ih h with h' | h'
        · exact Or.inl h'
        · exact Or.inr (List.mem_cons.mpr (Or.inr h'))

theorem mem_pySorted (y : String) (l : List String) (h : y ∈ pySorted l) : y ∈ l := by
  induction l with
  | nil => simp [pySorted] at h
  | cons z zs ih =>
    unfold pySorted at h
    simp only [List.foldr_cons] at h
    rcases mem_insertSorted z y _ h with h' | h'
    · exact List.mem_cons.mpr (Or.inl h')
    · exact List.mem_cons.mpr (Or.inr (ih h'))

theorem getD_mem_or (l : List String) (i : Nat) (d : String) :
    l.getD i d = d ∨ l.getD i d ∈ l := by
  rw [List.getD_eq_getElem?_getD]
  match he : l[i]? with
  | none => simp
  | some a =>
    right
    simp only [Option.getD_some]
    exact List.getElem?_mem he

theorem findDatumMethod2_mem (fname : String) (dr : Dict String) (s : String)
    (h : findDatumMethod2 fname dr = some s) : s ∈ dkeys dr := by
  unfold findDatumMethod2 at h
  split at h
  · split at h
    · rename_i hcont
      cases h
      exact dcontains_mem dr _ hcont
    · exact absurd h (by simp)
  · exact absurd h (by simp)

theorem planeFaceDatum_mem (dr : Dict String) (s : String)
    (h : planeFaceDatum dr = some s) : s ∈ dkeys dr := by
  unfold planeFaceDatum at h
  rw [Option.map_eq_some'] at h
  obtain ⟨p, hp, he⟩ := h
  exact he ▸ find?_fst_mem_dkeys dr _ p hp

theorem findDatumMethod3_mem (fname : String) (dr : Dict String) (s : String)
    (h : findDatumMethod3 fname dr = .ok (some s)) : s = "" ∨ s ∈ dkeys dr := by
  unfold findDatumMethod3 at h
  split at h
  · split at h
    · rename_i p hp
      cases h
      exact Or.inr (find?_fst_mem_dkeys dr _ p hp)
    · split at h
      · rename_i p rest
        cases h
        exact Or.inr (by simp [dkeys])
      · exact absurd h (by simp)
  · split at h
    · split at h
      · dsimp only [] at h
        split at h
        · split at h
          · split at h
            · rename_i k hk
              cases h
              exact Or.inr (mem_pySorted _ _ (List.mem_of_mem_getLast? hk))
            · exact absurd h (by simp)
          · cases h
            rcases getD_mem_or (pySorted (dkeys dr)) _ "" with h' | h'
            · exact Or.inl h'
            · exact Or.inr (mem_pySorted _ _ h')
        · injection h with h'
          exact Or.inr (planeFaceDatum_mem dr s h')
      · injection h with h'
        exact Or.inr (planeFaceDatum_mem dr s h')
    · exact absurd h (by simp)

theorem findDatumMethod4_mem (fname : String) (dlf : Dict String) (s : String)
    (h : findDatumMethod4 fname dlf = some s) : s ∈ dkeys dlf := by
  unfold findDatumMethod4 at h
  rw [Option.map_eq_some'] at h
  obtain ⟨p, hp, he⟩ := h
  exact he ▸ find?_fst_mem_dkeys dlf _ p hp

theorem findDatumMethod5_mem (fname : String) (dr : Dict String) :
    findDatumMethod5 fname dr = "" ∨ findDatumMethod5 fname dr ∈ dkeys dr := by
  cases dr with
  | nil => exact Or.inl rfl
  | cons p0 rest =>
    right
    dsimp only [findDatumMethod5]
    split
    · split
      · rename_i hA
        exact dcontains_mem _ _ hA
      · split
        · rename_i p hp
          exact find?_fst_mem_dkeys _ _ p hp
        · simp [dkeys]
    · split
      · split
        · rename_i hA
          exact dcontains_mem _ _ hA
        · split
          · rename_i p hp
            exact find?_fst_mem_dkeys _ _ p hp
          · simp [dkeys]
      · simp [dkeys]

theorem find_datum_mem (fn : String) (dr dlf : Dict String) (s : String)
    (hsub : ∀ k ∈ dkeys dlf, k ∈ dkeys dr)
    (h : find_datum_for_dimensional_tolerance fn dr dlf = .ok s) :
    s = "" ∨ s ∈ dkeys dr := by
  unfold find_datum_for_dimensional_tolerance at h
  split at h
  · cases h
    exact Or.inl rfl
  · dsimp only [] at h
    rw [m1Search_pyLower_none] at h
    dsimp only [] at h
    cases h2 : findDatumMethod2 (pyLower fn) dr with
    | some s' =>
      rw [h2] at h
      dsimp only [] at h
      injection h with h'
      subst h'
      exact Or.inr (findDatumMethod2_mem _ dr _ h2)
    | none =>
      rw [h2] at h
      dsimp only [] at h
      cases h3 : findDatumMethod3 (pyLower fn) dr with
      | error e =>
        rw [h3] at h
        dsimp only [] at h
        cases h
      | ok o =>
        cases o with
        | some s' =>
          rw [h3] at h
          dsimp only [] at h
          injection h with h'
          subst h'
          exact findDatumMethod3_mem _ dr _ h3
        | none =>
          rw [h3] at h
          dsimp only [] at h
          cases h4 : findDatumMethod4 (pyLower fn) dlf with
          | some s' =>
            rw [h4] at h
            dsimp only [] at h
            injection h with h'
            subst h'
            exact Or.inr (hsub _ (findDatumMethod4_mem _ dlf _ h4))
          | none =>
            rw [h4] at h
            dsimp only [] at h
            injection h with h'
            rw [← h']
            exact findDatumMethod5_mem _ dr

/-! ## Key flow of the two scans: every `datum_letter_to_feature` key is a
`datum_results` key, and the shape-aspect refinement never drops keys -/

theorem datumScan_foldl_sub (lines : List String) :
    ∀ (acc : Dict String × Dict String),
      (∀ k ∈ dkeys acc.2, k ∈ dkeys acc.1) →
      ∀ k ∈ dkeys (lines.foldl datumScanStep acc).2,
        k ∈ dkeys (lines.foldl datumScanStep acc).1 := by
  induction lines with
  | nil =>
    intro acc hacc k hk
    simpa using hacc k (by simpa using hk)
  | cons l ls ih =>
    intro acc hacc
    simp only [List.foldl_cons]
    apply ih
    intro k hk
    unfold datumScanStep at hk ⊢
    cases hp : parseDatumLine l.data with
    | none =>
      rw [hp] at hk
      dsimp only [] at hk ⊢
      exact hacc k hk
    | some pr =>
      obtain ⟨fn, L⟩ := pr
      rw [hp] at hk
      dsimp only [] at hk ⊢
      rcases mem_dkeys_dinsert _ _ _ _ hk with h' | h'
      · exact mem_dkeys_dinsert_of_mem _ _ _ _ (hacc k h')
      · rw [h']
        exact mem_dkeys_dinsert_self _ _ _

theorem datumScan_dlf_sub (lines : List String) :
    ∀ k ∈ dkeys (datumScan lines).2, k ∈ dkeys (datumScan lines).1 :=
  datumScan_foldl_sub lines ([], []) (by intro k hk; simp [dkeys] at hk)

theorem shapeAspectScan_foldl_preserves (ms : List (String × Option Char × String)) :
    ∀ (acc : Dict String × Dict String) (k : String), k ∈ dkeys acc.2 →
      k ∈ dkeys (ms.foldl shapeAspectStep acc).2 := by
  induction ms with
  | nil =>
    intro acc k hk
    simpa using hk
  | cons m ms ih =>
    intro acc k hk
    simp only [List.foldl_cons]
    apply ih
    unfold shapeAspectStep
    dsimp only []
    cases hc : m.2.1 with
    | none => exact hk
    | some c => exact mem_dkeys_dinsert_of_mem _ _ _ _ hk

theorem shapeAspectScan_preserves (lines : List String) (dr0 : Dict String) (k : String)
    (hk : k ∈ dkeys dr0) : k ∈ dkeys (shapeAspectScan lines dr0).2 :=
  shapeAspectScan_foldl_preserves _ ([], dr0) k hk

/-! ## `mapM` over `Except` produces only images of list elements -/

theorem mapM_aux_except_mem {α β : Type} (f : α → Except Unit β) :
    ∀ (xs : List α) (rs : List β), xs.mapM' f = .ok rs →
      ∀ r ∈ rs, ∃ x ∈ xs, f x = .ok r := by
  intro xs
  induction xs with
  | nil =>
    intro rs h r hr
    simp only [List.mapM'] at h
    cases h
    simp at hr
  | cons a l ih =>
    intro rs h r hr
    simp only [List.mapM'] at h
    cases hfa : f a with
    | error e =>
      rw [hfa] at h
      simp [Bind.bind, Except.bind] at h
    | ok b =>
      rw [hfa] at h
      cases hml : l.mapM' f with
      | error e =>
        rw [hml] at h
        simp [Bind.bind, Except.bind] at h
      | ok bs =>
        rw [hml] at h
        simp only [Bind.bind, Except.bind, pure, Except.pure] at h
        cases h
        rcases List.mem_cons.mp hr with hr' | hr'
        · exact ⟨a, List.mem_cons_self a l, hr' ▸ hfa⟩
        · obtain ⟨x, hx, hfx⟩ := ih bs hml r hr'
          exact ⟨x, List.mem_cons.mpr (Or.inr hx), hfx⟩

theorem mapM_except_mem {α β : Type} (f : α → Except Unit β) (xs : List α) (rs : List β)
    (h : xs.mapM f = .ok rs) : ∀ r ∈ rs, ∃ x ∈ xs, f x = .ok r :=
  mapM_aux_except_mem f xs rs (by rw [List.mapM'_eq_mapM]; exact h)

/-! ## Per-row datum membership -/

theorem dimSizeRow_datum_mem (lines : List String) (ld : Dict String) (nv : Dict Dec)
    (d2t : Dict String) (tv : Dict (Dec × Dec × Dec)) (dr dlf : Dict String)
    (m : String × String × String) (r : Row)
    (hsub : ∀ k ∈ dkeys dlf, k ∈ dkeys dr)
    (h : dimSizeRow lines ld nv d2t tv dr dlf m = .ok r) :
    r.datum = "" ∨ r.datum ∈ dkeys dr := by
  unfold dimSizeRow at h
  simp only [Bind.bind, Except.bind, pure, Except.pure] at h
  split at h
  · exact absurd h (by simp)
  · rename_i dl hfd
    cases h
    exact find_datum_mem _ dr dlf dl hsub hfd

theorem locDatumChain_mem (fn1 fn2 comb : String) (dr dlf : Dict String) (s : String)
    (hsub : ∀ k ∈ dkeys dlf, k ∈ dkeys dr)
    (h : locDatumChain fn1 fn2 comb dr dlf = .ok s) :
    s = "" ∨ s ∈ dkeys dr := by
  unfold locDatumChain at h
  simp only [Bind.bind, Except.bind, pure, Except.pure] at h
  split at h
  · -- fn1 ≠ "": the first statement calls the matcher
    split at h
    · cases h
    · rename_i dl1 h1
      split at h
      · -- dl1 = "" and fn2 ≠ "": second call
        split at h
        · cases h
        · rename_i dl2 h2
          split at h
          · exact find_datum_mem _ dr dlf s hsub h
          · cases h
            exact find_datum_mem _ dr dlf _ hsub h2
      · -- keep dl1
        split at h
        · exact find_datum_mem _ dr dlf s hsub h
        · cases h
          exact find_datum_mem _ dr dlf _ hsub h1
  · -- fn1 = "": dl1 is the empty string
    split at h
    · -- fn2 ≠ "": second call
      split at h
      · cases h
      · rename_i dl2 h2
        split at h
        · exact find_datum_mem _ dr dlf s hsub h
        · cases h
          exact find_datum_mem _ dr dlf _ hsub h2
    · -- combined-name call on the empty chain
      split at h
      · exact find_datum_mem _ dr dlf s hsub h
      · cases h
        exact Or.inl rfl

theorem dimLocRow_datum_mem (lines : List String) (ld : Dict String) (nv : Dict Dec)
    (d2t : Dict String) (tv : Dict (Dec × Dec × Dec)) (dr dlf : Dict String)
    (m : String × String × String × String) (r : Row)
    (hsub : ∀ k ∈ dkeys dlf, k ∈ dkeys dr)
    (h : dimLocRow lines ld nv d2t tv dr dlf m = .ok r) :
    r.datum = "" ∨ r.datum ∈ dkeys dr := by
  unfold dimLocRow at h
  simp only [Bind.bind, Except.bind, pure, Except.pure] at h
  split at h
  · exact absurd h (by simp)
  · rename_i dl hfd
    cases h
    exact locDatumChain_mem _ _ _ dr dlf dl hsub hfd

theorem extract_dimensional_mem (lines : List String) (ld dr dlf : Dict String) (r : Row)
    (hsub : ∀ k ∈ dkeys dlf, k ∈ dkeys dr)
    (hr : r ∈ extract_dimensional_tolerances lines ld dr dlf) :
    r.datum = "" ∨ r.datum ∈ dkeys dr := by
  unfold extract_dimensional_tolerances at hr
  split at hr
  · rename_i rs hok
    unfold extract_dimensional_tolerances_core at hok
    simp only [Bind.bind, Except.bind, pure, Except.pure] at hok
    split at hok
    · exact absurd hok (by simp)
    · rename_i sizeRows hsz
      split at hok
      · exact absurd hok (by simp)
      · rename_i locRows hloc
        cases hok
        rcases List.mem_append.mp hr with hmem | hmem
        · obtain ⟨x, hx, hfx⟩ := mapM_except_mem _ _ _ hsz r hmem
          exact dimSizeRow_datum_mem lines ld _ _ _ dr dlf x r hsub hfx
        · obtain ⟨x, hx, hfx⟩ := mapM_except_mem _ _ _ hloc r hmem
          exact dimLocRow_datum_mem lines ld _ _ _ dr dlf x r hsub hfx
  · simp at hr

/-- C3 (amended): every *dimensional* row of an extraction run whose
datum-letter field is non-empty carries a key of the datum→location map built
earlier in the same run.  (The unamended claim, which also covers geometric
rows, is refuted by `C3_referential_integrity_counterexample`.) -/
theorem C3_dimensional_rows_referential_integrity (lines : List String) (row : Row)
    (hrow : row ∈ extract_dimensional_tolerances lines (buildLineDict lines)
      (shapeAspectScan lines (datumScan lines).1).2 (datumScan lines).2)
    (hne : row.datum ≠ "") :
    row.datum ∈ dkeys (shapeAspectScan lines (datumScan lines).1).2 := by
  have hsub : ∀ k ∈ dkeys (datumScan lines).2,
      k ∈ dkeys (shapeAspectScan lines (datumScan lines).1).2 := fun k hk =>
    shapeAspectScan_preserves lines _ k (datumScan_dlf_sub lines k hk)
  rcases extract_dimensional_mem lines _ _ _ row hsub hrow with h | h
  · exact absurd h hne
  · exact h

theorem C3_dimensional_rows_referential_integrity_witness :
    (⟨"‚åÄ Diameter", "N/A", "A", "cylindrical side", "curved side of the cylinder",
        "", "", ""⟩ : Row) ∈
      extract_dimensional_tolerances wit3lines (buildLineDict wit3lines)
        (shapeAspectScan wit3lines (datumScan wit3lines).1).2 (datumScan wit3lines).2 ∧
    ("A" : String) ∈ dkeys (shapeAspectScan wit3lines (datumScan wit3lines).1).2 :=
  ⟨by decide,
   C3_dimensional_rows_referential_integrity wit3lines
     ⟨"‚åÄ Diameter", "N/A", "A", "cylindrical side", "curved side of the cylinder",
       "", "", ""⟩ (by decide) (by decide)⟩

/-- C5: the Surface/Position Classifier satisfies all five boundary cases:
`classify("Plane1", None) = "bottom face"`, `classify("Plane2", None) = "top face"`,
`classify("SomePlane", "B") = "cylindrical side"`, `classify("SomePlane", "D") = "top face"`,
and `classify("RandomName", None)` returns `"RandomName"` unchanged. -/
theorem C5_classifier_boundary_cases :
    determine_plane_position "Plane1" none = "bottom face" ∧
    determine_plane_position "Plane2" none = "top face" ∧
    determine_plane_position "SomePlane" (some "B") = "cylindrical side" ∧
    determine_plane_position "SomePlane" (some "D") = "top face" ∧
    determine_plane_position "RandomName" none = "RandomName" := by
  decide

/-- C10: when the feature name passed to the Surface/Position Classifier is
empty (or absent), the classifier returns the literal string `"surface"`
rather than the original name, whatever the optional datum letter is; the
return-the-name-unchanged tier is therefore only reachable for non-empty
names (C5's `"RandomName"` case shows it live for non-empty ones). -/
theorem C10_empty_feature_name_yields_surface (datum_letter : Option String) :
    determine_plane_position "" datum_letter = "surface" := by
  rfl

end GDNT
